import Mathlib

/-!
Verification development for the ingestion-and-transcription pipeline of the
AI-Assistant repository (backend/app/core/file_watcher.py,
backend/app/core/whisper_processor.py, backend/app/models/day.py,
backend/app/models/fragment.py, libs/config.py).

The Python source is shallowly embedded: pure helpers become Lean functions,
the SQLAlchemy session becomes an explicit `DB` state record threaded through
the operations, commit failures are injected through explicit boolean
oracles, and the asynchronous engine call is represented by its outcome
value.  Floating-point durations are modelled as rationals; machine floats
never overflow in the ranges exercised here and the spec itself asks only
for sum/compare behaviour "within floating-point tolerance".
-/

namespace AIAssist

/- Batteries marks `Rat.add` elaborator-irreducible; the kernel can unfold
it regardless.  Restoring default visibility lets `decide` evaluate the
concrete registry states below. -/
attribute [local semireducible] Rat.add

/-! ## Calendar and clock values

`datetime.date`, `datetime.time` and `datetime.datetime` values as used by
the pipeline (no timezone handling appears in the embedded code paths). -/

structure Date where
  year : Nat
  month : Nat
  day : Nat
deriving DecidableEq, Repr

structure Time where
  hour : Nat
  minute : Nat
  second : Nat
deriving DecidableEq, Repr

structure DateTime where
  date : Date
  time : Time
deriving DecidableEq, Repr

/-! ## String helpers mirroring the Python `str` operations used by the source

The embedded code uses `str.split(sep)` with a single-character separator,
`str.replace(old, new)` (replace all non-overlapping occurrences, scanning
left to right), `len`, `str.count('-')` and `datetime.strptime`. -/

/-- `s.split(sep)` for a one-character separator, Python semantics:
`"a-b".split('-') = ["a","b"]`, `"".split('-') = [""]`. -/
def splitOnChar (sep : Char) : List Char → List (List Char)
  | [] => [[]]
  | c :: rest =>
    let r := splitOnChar sep rest
    if c = sep then [] :: r
    else
      match r with
      | h :: t => (c :: h) :: t
      | [] => [[c]]

/-- Python `filename.replace(".wav", "")`: drop every non-overlapping
occurrence of `.wav`, scanning left to right. -/
def dropWavAll : List Char → List Char
  | '.' :: 'w' :: 'a' :: 'v' :: rest => dropWavAll rest
  | c :: rest => c :: dropWavAll rest
  | [] => []

/-- Python `time_part.replace('-', ':')`. -/
def dashToColon (cs : List Char) : List Char :=
  cs.map (fun c => if c = '-' then ':' else c)

/-- Number of `'-'` characters, Python `part.count('-')`. -/
def dashCount (s : String) : Nat :=
  (s.toList.filter (fun c => c = '-')).length

/-- Numeric value of a digit string (callers check `isDigit` first). -/
def natOfDigits (cs : List Char) : Nat :=
  cs.foldl (fun acc c => 10 * acc + (c.toNat - 48)) 0

def allDigits (cs : List Char) : Bool :=
  cs.all Char.isDigit

/-- Gregorian leap-year rule used by `datetime`. -/
def isLeapYear (y : Nat) : Bool :=
  y % 4 == 0 && (y % 100 != 0 || y % 400 == 0)

def daysInMonth (y m : Nat) : Nat :=
  if m = 2 then (if isLeapYear y then 29 else 28)
  else if m = 4 ∨ m = 6 ∨ m = 9 ∨ m = 11 then 30
  else 31

/-- `datetime.strptime(s, "%Y-%m-%d").date()` as a total function.
CPython's `_strptime` matches `%Y` against exactly four digits, `%m`
against a one- or two-digit month `1..12`, `%d` against a one- or
two-digit day `1..31`; the `datetime` constructor then requires
`year ≥ 1` and `day ≤ daysInMonth`.  Any failure raises `ValueError`,
modelled as `none`. -/
def parseDateYMD (s : String) : Option Date :=
  match splitOnChar '-' s.toList with
  | [ys, ms, ds] =>
    if ys.length = 4 ∧ allDigits ys
        ∧ 1 ≤ ms.length ∧ ms.length ≤ 2 ∧ allDigits ms
        ∧ 1 ≤ ds.length ∧ ds.length ≤ 2 ∧ allDigits ds then
      let y := natOfDigits ys
      let m := natOfDigits ms
      let d := natOfDigits ds
      if 1 ≤ y ∧ 1 ≤ m ∧ m ≤ 12 ∧ 1 ≤ d ∧ d ≤ daysInMonth y m then
        some ⟨y, m, d⟩
      else none
    else none
  | _ => none

/-- `datetime.strptime(s, "%H:%M:%S").time()` as a total function.
`%H` matches one or two digits with value `0..23`, `%M` one or two digits
`0..59`; `%S` matches `0..61` but the `datetime` constructor then rejects
seconds above 59, so the net effect is `0..59`. -/
def parseTimeHMS (s : String) : Option Time :=
  match splitOnChar ':' s.toList with
  | [hs, ms, ss] =>
    if 1 ≤ hs.length ∧ hs.length ≤ 2 ∧ allDigits hs
        ∧ 1 ≤ ms.length ∧ ms.length ≤ 2 ∧ allDigits ms
        ∧ 1 ≤ ss.length ∧ ss.length ≤ 2 ∧ allDigits ss then
      let h := natOfDigits hs
      let m := natOfDigits ms
      let sec := natOfDigits ss
      if h ≤ 23 ∧ m ≤ 59 ∧ sec ≤ 59 then some ⟨h, m, sec⟩ else none
    else none
  | _ => none

/-! ## FileWatcher.extract_date_from_path / extract_start_time_from_filename
(file_watcher.py lines 307-333).  A filesystem path is embedded as its list
of components (`Path.parts`). -/

/-- `FileWatcher.extract_date_from_path`: walk the path components in
reverse; the first component of length 10 containing exactly two dashes
that parses under `%Y-%m-%d` is returned (as a string); otherwise `None`. -/
def extract_date_from_path (parts : List String) : Option String :=
  go parts.reverse
where
  go : List String → Option String
    | [] => none
    | p :: rest =>
      if p.length = 10 ∧ dashCount p = 2 ∧ (parseDateYMD p).isSome then
        some p
      else go rest

/-- `FileWatcher.extract_start_time_from_filename`: strip `.wav`, split on
`'_'` and parse the second chunk as `%H:%M:%S` after turning dashes into
colons; any failure falls back to `datetime.combine(date, now.time())`. -/
def extract_start_time_from_filename (filename : String) (d : Date)
    (nowT : Time) : DateTime :=
  let base := dropWavAll filename.toList
  if base.contains '_' then
    match splitOnChar '_' base with
    | _ :: timePart :: _ =>
      match parseTimeHMS (String.mk (dashToColon timePart)) with
      | some t => ⟨d, t⟩
      | none => ⟨d, nowT⟩
    | _ => ⟨d, nowT⟩
  else ⟨d, nowT⟩

/-! ## Data model (backend/app/models/day.py, backend/app/models/fragment.py)

`Day` and `Fragment` rows with the columns the embedded operations read or
write; SQLAlchemy column defaults are reproduced in the creation sites.
`created_at`/`updated_at`/`end_time` are bookkeeping timestamps never read
by the pipeline and are omitted. -/

structure Segment where
  start : ℚ
  /-- dictionary key `end` in the source (Lean reserves the word). -/
  stop : ℚ
  text : String
deriving DecidableEq, Repr

/-- The uniform result dictionary built by `WhisperProcessor`: both
`_transcribe_sync` and `_mock_transcribe` always populate exactly the keys
`text`, `segments`, `language`, `duration`, `model`. -/
structure TranscriptionResult where
  text : String
  segments : List Segment
  language : String
  duration : ℚ
  model : String
deriving DecidableEq, Repr

structure Day where
  id : Nat
  date : Date
  total_fragments : Nat
  total_duration_seconds : ℚ
  short_summary : Option String
  medium_summary : Option String
  full_text : Option String
  is_processed : Bool
  whisper_completed : Bool
  summary_generated : Bool
deriving DecidableEq, Repr

structure Fragment where
  id : Nat
  day_id : Nat
  file_path : String
  original_filename : String
  file_size_bytes : Option Nat
  duration_seconds : Option ℚ
  sample_rate : Nat
  channels : Nat
  start_time : DateTime
  transcribed : Bool
  transcription_completed_at : Option DateTime
  transcript_text : Option String
  whisper_segments : Option (List Segment)
  whisper_model_used : Option String
  processing_error : Option String
  retry_count : Nat
deriving DecidableEq, Repr

/-- The persisted registry state: the two tables plus autoincrement
counters for the integer primary keys. -/
structure DB where
  days : List Day
  fragments : List Fragment
  nextDayId : Nat
  nextFragmentId : Nat
deriving DecidableEq, Repr

def emptyDB : DB := ⟨[], [], 1, 1⟩

/-- `db.query(Day).filter(Day.date == d).first()` -/
def findDayByDate (db : DB) (d : Date) : Option Day :=
  db.days.find? (fun day => day.date = d)

/-- `db.query(Day).filter(Day.id == i).first()` -/
def findDayById (db : DB) (i : Nat) : Option Day :=
  db.days.find? (fun day => day.id = i)

/-- `db.query(Fragment).filter(Fragment.file_path == p).first()` -/
def findFragmentByPath (db : DB) (p : String) : Option Fragment :=
  db.fragments.find? (fun f => f.file_path = p)

/-- `db.query(Fragment).filter(Fragment.id == i).first()` -/
def findFragmentById (db : DB) (i : Nat) : Option Fragment :=
  db.fragments.find? (fun f => f.id = i)

/-- ORM identity update: committing a mutated row replaces every stored row
carrying its primary key. -/
def updateFragment (db : DB) (f : Fragment) : DB :=
  { db with fragments := db.fragments.map (fun g => if g.id = f.id then f else g) }

def updateDay (db : DB) (d : Day) : DB :=
  { db with days := db.days.map (fun g => if g.id = d.id then d else g) }

/-- Number of Fragment rows stored under a given file path. -/
def countPath (db : DB) (p : String) : Nat :=
  (db.fragments.filter (fun f => f.file_path = p)).length

/-- Fragment count of the Day row for a date (0 when absent). -/
def dayCountByDate (db : DB) (d : Date) : Nat :=
  ((findDayByDate db d).map Day.total_fragments).getD 0

/-- Cumulative duration of the Day row with a given id (0 when absent). -/
def dayDurById (db : DB) (i : Nat) : ℚ :=
  ((findDayById db i).map Day.total_duration_seconds).getD 0

/-- Summed durations of the transcribed fragments of a fragment list that
are attributed to day id `i`. -/
def fragsDurSum (l : List Fragment) (i : Nat) : ℚ :=
  ((l.filter (fun f => f.day_id = i && f.transcribed)).map
    (fun f => f.duration_seconds.getD 0)).sum

/-- A single fragment's contribution to `fragsDurSum`. -/
def fragContrib (i : Nat) (f : Fragment) : ℚ :=
  if f.day_id = i && f.transcribed then f.duration_seconds.getD 0 else 0

/-- Sum of the stored durations of the transcribed fragments attributed to
a day id — the quantity the spec's duration-conservation property compares
against `total_duration_seconds`. -/
def dayFragSum (db : DB) (i : Nat) : ℚ :=
  fragsDurSum db.fragments i

/-! ## FileWatcher.add_file_to_database (file_watcher.py lines 202-261)

The filesystem is a snapshot `fs : String → Option Nat` giving the size a
`stat()` call returns (`none` models the call raising).  The two
`db.commit()` calls in the source — the lazy Day creation at line 223 and
the Fragment-plus-counter commit at line 250 — are given explicit success
oracles `c1ok`/`c2ok`; a failing commit raises, is caught by the
function's outer `except`, and the function returns `None` with exactly
the previously committed state persisted. -/

/-- `str(file_path)` for a path given by its components. -/
def pathStr (parts : List String) : String :=
  String.intercalate "/" parts

/-- `Path(...).name`: the final path component. -/
def pathName (parts : List String) : String :=
  parts.getLast?.getD ""

/-- The Day row `Day(date=file_date)` built at line 221: every other column
takes its SQLAlchemy default. -/
def freshDay (db : DB) (file_date : Date) : Day :=
  { id := db.nextDayId, date := file_date,
    total_fragments := 0, total_duration_seconds := 0,
    short_summary := none, medium_summary := none, full_text := none,
    is_processed := false, whisper_completed := false,
    summary_generated := false }

/-- The lazy-Day commit at lines 222-224: one transaction inserting only
the new Day row. -/
def insertDayRow (db : DB) (day : Day) : DB :=
  { db with days := db.days ++ [day], nextDayId := db.nextDayId + 1 }

/-- The commit at lines 247-250: one transaction inserting the Fragment row
and persisting the incremented `total_fragments` of its Day. -/
def commitFragmentAndCount (db : DB) (fragment : Fragment) (day : Day) : DB :=
  updateDay
    { db with fragments := db.fragments ++ [fragment],
              nextFragmentId := db.nextFragmentId + 1 }
    { day with total_fragments := day.total_fragments + 1 }

/-- The Fragment row built at lines 236-244: metadata from `stat()` and
the filename, Pi-configuration constants 16000/1, every other column at
its SQLAlchemy default. -/
def newFragment (db1 : DB) (day : Day) (parts : List String)
    (start_time : DateTime) (size : Nat) : Fragment :=
  { id := db1.nextFragmentId, day_id := day.id,
    file_path := pathStr parts, original_filename := pathName parts,
    file_size_bytes := some size, duration_seconds := none,
    sample_rate := 16000, channels := 1, start_time := start_time,
    transcribed := false, transcription_completed_at := none,
    transcript_text := none, whisper_segments := none,
    whisper_model_used := none, processing_error := none,
    retry_count := 0 }

def add_file_to_database (fs : String → Option Nat) (nowT : Time)
    (c1ok c2ok : Bool) (db : DB) (parts : List String) : DB × Option Fragment :=
  match extract_date_from_path parts with
  | none => (db, none)                      -- date extraction failed: warn, return None
  | some dateStr =>
    match parseDateYMD dateStr with        -- second strptime at line 211
    | none => (db, none)                    -- unreachable for extracted strings; ValueError caught
    | some file_date =>
      let start_time := extract_start_time_from_filename (pathName parts) file_date nowT
      -- find-or-create the Day (lines 219-224); creation commits separately
      let dayState : Option (DB × Day) :=
        match findDayByDate db file_date with
        | some day => some (db, day)
        | none =>
          if c1ok then
            some (insertDayRow db (freshDay db file_date), freshDay db file_date)
          else none                         -- commit raised: outer except, nothing persisted
      match dayState with
      | none => (db, none)
      | some (db1, day) =>
        -- idempotency check (lines 227-232): an existing row short-circuits
        match findFragmentByPath db1 (pathStr parts) with
        | some existing => (db1, some existing)
        | none =>
          match fs (pathStr parts) with
          | none => (db1, none)             -- file_path.stat() raised
          | some size =>
            let fragment := newFragment db1 day parts start_time size
            -- lines 247-250: counter increment and row insert in ONE commit
            if c2ok then
              (commitFragmentAndCount db1 fragment day, some fragment)
            else (db1, none)                -- commit raised: neither row nor counter persisted

/-! ## WhisperProcessor (whisper_processor.py)

The adapter's configuration dictionaries are embedded as records with the
keys `get_whisper_config`/`get_dev_config` provide.  `get_whisper_config`
(libs/config.py lines 89-97) returns no `timeout` key, so
`self.config.get("timeout", 300)` is modelled by an optional field read
with default 300.  The underlying `model.transcribe` call is represented
by its outcome. -/

structure WhisperConfig where
  model : String
  device : String
  compute_type : String
  language : String
  task : String
  /-- `config.get("timeout", 300)`; `get_whisper_config` never sets it. -/
  timeout : Option Nat
deriving DecidableEq, Repr

structure DevConfig where
  dev_mode : Bool
  mock_whisper : Bool
  mock_telegram : Bool
deriving DecidableEq, Repr

def WhisperConfig.timeoutVal (cfg : WhisperConfig) : Nat :=
  cfg.timeout.getD 300

/-- What happens inside `self.model.transcribe(file_path, **options)`
under the SIGALRM wall-clock guard of `_transcribe_sync`. -/
inductive EngineCallOutcome where
  /-- the engine returns its raw result dictionary in time -/
  | success (text : String) (segments : List Segment) (language : Option String)
  /-- the wall clock exceeds the configured timeout: SIGALRM fires and the
  handler raises `TimeoutError` -/
  | timeout
  /-- the engine raises internally -/
  | engineError (msg : String)
deriving DecidableEq, Repr

/-- The two failure shapes `_transcribe_sync` can raise: the handler's
`TimeoutError` versus the engine-internal exception (re-raised unchanged
by the `except` at lines 146-148). -/
inductive SyncFailure where
  | timeoutError (msg : String)
  | internal (msg : String)
deriving DecidableEq, Repr

def timeoutMessage (cfg : WhisperConfig) : String :=
  "Транскрипция превысила " ++ toString cfg.timeoutVal ++ " секунд"

/-- `WhisperProcessor._transcribe_sync` (lines 94-148): runs the guarded
engine call and normalises the raw output — `text` stripped, segment texts
stripped, language defaulted to `"unknown"`, duration taken from the last
segment's end time (0 when there are no segments), `model` from the
configuration. -/
def transcribeSync (cfg : WhisperConfig) (oc : EngineCallOutcome) :
    Except SyncFailure TranscriptionResult :=
  match oc with
  | .success text segments language =>
    .ok { text := text.trim,
          segments := segments.map (fun s => { s with text := s.text.trim }),
          language := language.getD "unknown",
          duration := ((segments.getLast?).map Segment.stop).getD 0,
          model := cfg.model }
  | .timeout => .error (.timeoutError (timeoutMessage cfg))
  | .engineError m => .error (.internal m)

/-- `WhisperProcessor._mock_transcribe` (lines 150-169). -/
def mock_transcribe (file_path : String) : TranscriptionResult :=
  let filename := ((splitOnChar '/' file_path.toList).getLast?.getD []) |> String.mk
  let mock_text := "[МОК ТРАНСКРИПЦИЯ] Аудиофайл " ++ filename
      ++ " обработан в режиме разработки."
  { text := mock_text,
    segments := [{ start := 0, stop := 10, text := mock_text }],
    language := "ru",
    duration := 10,
    model := "mock" }

/-- `WhisperProcessor.transcribe_file` (lines 66-92) with its exception
channel made explicit: mock mode and the model-unavailable fallback return
the mock result; otherwise the executor call runs `_transcribe_sync` inside
`try/except` and any failure is caught and turned into `None`.
`modelLoaded` is the post-`initialize` state of `self.model`
(`initialize` traps its own errors, lines 62-64). -/
def transcribe_file_exc (dev : DevConfig) (cfg : WhisperConfig)
    (modelLoaded : Bool) (oc : EngineCallOutcome) (file_path : String) :
    Except String (Option TranscriptionResult) :=
  if dev.mock_whisper then .ok (some (mock_transcribe file_path))
  else if !modelLoaded then .ok (some (mock_transcribe file_path))
  else
    match transcribeSync cfg oc with
    | .ok r => .ok (some r)
    | .error _ => .ok none                  -- except at lines 90-92: return None

/-- The value the orchestrator receives from the adapter. -/
def transcribe_file (dev : DevConfig) (cfg : WhisperConfig)
    (modelLoaded : Bool) (oc : EngineCallOutcome) (file_path : String) :
    Option TranscriptionResult :=
  match transcribe_file_exc dev cfg modelLoaded oc file_path with
  | .ok r => r
  | .error _ => none

/-! ## FileWatcher.transcribe_fragment (file_watcher.py lines 263-305)

The single awaited adapter call either returns `Option TranscriptionResult`
or raises; `Except String (Option TranscriptionResult)` captures both, with
`.error e` the exception whose text `str(e)` the `except` branch stores. -/

def transcribe_fragment_db (db : DB) (fragId : Nat) (nowDT : DateTime)
    (engine : Except String (Option TranscriptionResult)) : DB :=
  match engine with
  | .ok none => db                          -- `if result:` is false — nothing recorded
  | .ok (some r) =>
    match findFragmentById db fragId with
    | none => db
    | some f =>
      let f' := { f with transcript_text := some r.text,
                         whisper_segments := some r.segments,
                         whisper_model_used := some r.model,
                         transcribed := true,
                         transcription_completed_at := some nowDT,
                         duration_seconds := some r.duration }
      let db' := updateFragment db f'
      -- lines 282-285: Day update guarded by truthiness of duration
      if r.duration ≠ 0 then
        match findDayById db' f'.day_id with
        | some day =>
          updateDay db' { day with
            total_duration_seconds := day.total_duration_seconds + r.duration }
        | none => db'
      else db'
  | .error e =>
    -- except branch (lines 293-305): record the raw error, bump the counter
    match findFragmentById db fragId with
    | none => db
    | some f =>
      updateFragment db { f with processing_error := some e,
                                 retry_count := f.retry_count + 1 }

/-- `transcribe_fragment` invokes the engine adapter exactly once (the
single call at line 266; the function contains no loop and reads no retry
configuration).  The wrapper makes the invocation count observable: the
engine is an attempt-indexed oracle and the count of attempts consumed is
returned alongside the state. -/
def transcribe_fragment_run (db : DB) (f : Fragment) (nowDT : DateTime)
    (engineFn : Nat → String → Except String (Option TranscriptionResult)) :
    DB × Nat :=
  (transcribe_fragment_db db f.id nowDT (engineFn 0 f.file_path), 1)

/-! ## FileWatcher.is_file_ready (file_watcher.py lines 135-145)

The detector is a *synchronous* method.  Line 140 calls `asyncio.sleep(0.5)`
without awaiting it: the coroutine object is created and discarded, so no
time passes between the two `stat()` samples.  The file is modelled as a
size history `sizeAt : Nat → Option Nat` over milliseconds (`none` models
`stat()` raising). -/

/-- Milliseconds elapsed by the un-awaited `asyncio.sleep(0.5)` call: the
coroutine is never run, so the answer is 0. -/
def unawaitedSleepAdvance : Nat := 0

def is_file_ready (sizeAt : Nat → Option Nat) (t : Nat) : Bool :=
  match sizeAt t, sizeAt (t + unawaitedSleepAdvance) with
  | some size1, some size2 => size1 = size2 && size1 > 0
  | _, _ => false                           -- except: return False

/-- Modelled from the spec: "sample the file size, wait a short fixed
interval (hundreds of milliseconds), sample again; the file is ready iff
both samples are non-zero and equal", any I/O error reporting not ready.
The source's 0.5-second figure is used for the interval. -/
def readinessSpec (sizeAt : Nat → Option Nat) (t : Nat) : Bool :=
  match sizeAt t, sizeAt (t + 500) with
  | some size1, some size2 => size1 = size2 && size1 > 0
  | _, _ => false

/-! ## FileWatcher.process_audio_file (file_watcher.py lines 176-200) -/

structure WatcherState where
  db : DB
  processed_files : List String
deriving Repr

/-- One orchestration task: readiness gate (with one awaited 2-second
retry), registration, transcription, and the completed-set insertion.  The
engine behaviour is supplied as the adapter outcome for the transcription
call; commit oracles are fixed to success (the task-boundary `except`
would otherwise swallow the error, which the registration embedding
already covers). -/
def process_audio_file (sizeAt : String → Nat → Option Nat) (t : Nat)
    (nowT : Time) (nowDT : DateTime)
    (engineFn : String → Except String (Option TranscriptionResult))
    (st : WatcherState) (parts : List String) : WatcherState :=
  let p := pathStr parts
  let ready :=
    if is_file_ready (sizeAt p) t then true
    else is_file_ready (sizeAt p) (t + 2000)  -- await asyncio.sleep(2), re-check
  if !ready then st
  else
    let tReg := if is_file_ready (sizeAt p) t then t else t + 2000
    match add_file_to_database (fun q => sizeAt q tReg) nowT true true st.db parts with
    | (db', none) => { st with db := db' }
    | (db', some fragment) =>
      let db'' := transcribe_fragment_db db' fragment.id nowDT (engineFn fragment.file_path)
      { db := db'', processed_files := st.processed_files ++ [p] }

/-! ## Core operation sequences (for the aggregate-state invariants)

A sequence of registry-visible core operations: registrations (scan or
event driven) and per-fragment transcription attempts with their engine
outcomes. -/

inductive CoreOp where
  | register (parts : List String)
  | transcribe (fragId : Nat) (engine : Except String (Option TranscriptionResult))

def stepOp (fs : String → Option Nat) (nowT : Time) (nowDT : DateTime)
    (db : DB) : CoreOp → DB
  | .register parts => (add_file_to_database fs nowT true true db parts).1
  | .transcribe fid engine => transcribe_fragment_db db fid nowDT engine

def runOps (fs : String → Option Nat) (nowT : Time) (nowDT : DateTime) :
    DB → List CoreOp → DB
  | db, [] => db
  | db, op :: ops => runOps fs nowT nowDT (stepOp fs nowT nowDT db op) ops

/-- A successful transcription commit targets a fragment not already
marked transcribed (true of every fragment the pipeline processes for the
first time; violated exactly by re-processing an already transcribed
path). -/
def safeOp (db : DB) : CoreOp → Bool
  | .transcribe fid (.ok (some _)) =>
    db.fragments.all (fun f => f.id ≠ fid || !f.transcribed)
  | _ => true

def safeRun (fs : String → Option Nat) (nowT : Time) (nowDT : DateTime) :
    DB → List CoreOp → Bool
  | _, [] => true
  | db, op :: ops =>
    safeOp db op && safeRun fs nowT nowDT (stepOp fs nowT nowDT db op) ops

/-- A successful engine outcome reports a non-negative duration. -/
def nonNegOp : CoreOp → Bool
  | .transcribe _ (.ok (some r)) => 0 ≤ r.duration
  | _ => true

/-- Every successful engine outcome in the sequence reports a non-negative
duration. -/
def nonNegOps (ops : List CoreOp) : Bool :=
  ops.all nonNegOp

/-- Structural well-formedness the autoincrement keys maintain: stored ids
are below the counters and fragment ids are unique. -/
def WF (db : DB) : Prop :=
  (∀ f ∈ db.fragments, f.id < db.nextFragmentId) ∧
  (db.fragments.map Fragment.id).Nodup ∧
  (∀ d ∈ db.days, d.id < db.nextDayId) ∧
  (db.days.map Day.id).Nodup ∧
  (∀ f ∈ db.fragments, f.day_id < db.nextDayId)

/-- The duration-conservation property: every stored Day's cumulative
duration equals the summed durations of its transcribed fragments. -/
def DurationInvariant (db : DB) : Prop :=
  ∀ day ∈ db.days, day.total_duration_seconds = dayFragSum db day.id

/-! ## Registry schema constraints (backend/app/models)

The column declarations that decide what the registry itself enforces. -/

structure ColumnSpec where
  maxLength : Option Nat
  nullable : Bool
  unique : Bool
  indexed : Bool
deriving DecidableEq, Repr

/-- `Fragment.file_path = Column(String(512), nullable=False, index=True)`
(fragment.py line 22).  SQLAlchemy's `unique` keyword defaults to false and
is not passed. -/
def fragment_file_path_column : ColumnSpec :=
  { maxLength := some 512, nullable := false, unique := false, indexed := true }

/-- `Day.date = Column(Date, unique=True, index=True, nullable=False)`
(day.py line 19). -/
def day_date_column : ColumnSpec :=
  { maxLength := none, nullable := false, unique := true, indexed := true }

/-- A direct registry insert of a Day row succeeds exactly when the
declared constraints hold: `days.date` carries a unique key. -/
def registryInsertDay (db : DB) (day : Day) : Option DB :=
  if db.days.all (fun d => d.date ≠ day.date) then
    some (insertDayRow db { day with id := db.nextDayId })
  else none

/-- A direct registry insert of a Fragment row succeeds exactly when the
declared constraints hold: the `day_id` foreign key must resolve; no
uniqueness constraint guards `file_path`. -/
def registryInsertFragment (db : DB) (f : Fragment) : Option DB :=
  if db.days.any (fun d => d.id = f.day_id) then
    some { db with fragments := db.fragments ++ [{ f with id := db.nextFragmentId }],
                   nextFragmentId := db.nextFragmentId + 1 }
  else none

/-! ## Concrete fixtures used by counterexamples and witnesses -/

/-- The scenario file `2024-01-15/2024-01-15_14-30-00.wav` relative to the
watched root, as path components. -/
def demoParts : List String := ["2024-01-15", "2024-01-15_14-30-00.wav"]

def demoPath : String := "2024-01-15/2024-01-15_14-30-00.wav"

/-- A filesystem snapshot where the scenario file exists with 1024 bytes. -/
def demoFs : String → Option Nat :=
  fun p => if p = demoPath then some 1024 else none

/-- The same file with a time-invariant size (finished recording). -/
def demoSizeAt : String → Nat → Option Nat := fun p _ => demoFs p

def nowT0 : Time := ⟨9, 0, 0⟩

def nowDT0 : DateTime := ⟨⟨2024, 1, 15⟩, ⟨15, 0, 0⟩⟩

/-- Whisper configuration as `get_whisper_config` builds it from default
environment values (libs/config.py lines 89-97); note the absent
`timeout` key. -/
def whisperCfg0 : WhisperConfig :=
  { model := "large-v3", device := "cuda", compute_type := "float16",
    language := "ru", task := "transcribe", timeout := none }

/-- Dev configuration with the real engine selected. -/
def engineDev : DevConfig :=
  { dev_mode := true, mock_whisper := false, mock_telegram := false }

/-- Dev configuration with `MOCK_WHISPER` enabled. -/
def mockDev : DevConfig :=
  { dev_mode := true, mock_whisper := true, mock_telegram := false }

/-- The adapter in mock engine mode, as the orchestrator sees it. -/
def mockEngineFn : String → Except String (Option TranscriptionResult) :=
  fun p => .ok (transcribe_file mockDev whisperCfg0 false .timeout p)

/-- A registered Day row for 2024-01-15 holding one fragment. -/
def day15 : Day :=
  { id := 1, date := ⟨2024, 1, 15⟩, total_fragments := 1,
    total_duration_seconds := 0, short_summary := none,
    medium_summary := none, full_text := none, is_processed := false,
    whisper_completed := false, summary_generated := false }

/-- The scenario fragment, registered but not yet transcribed. -/
def fragRegistered : Fragment :=
  { id := 1, day_id := 1, file_path := demoPath,
    original_filename := "2024-01-15_14-30-00.wav",
    file_size_bytes := some 1024, duration_seconds := none,
    sample_rate := 16000, channels := 1,
    start_time := ⟨⟨2024, 1, 15⟩, ⟨14, 30, 0⟩⟩, transcribed := false,
    transcription_completed_at := none, transcript_text := none,
    whisper_segments := none, whisper_model_used := none,
    processing_error := none, retry_count := 0 }

/-- Registry state right after the scenario registration. -/
def dbRegistered : DB := ⟨[day15], [fragRegistered], 2, 2⟩

/-- The registered fragment carrying an error from an earlier attempt. -/
def fragWithError : Fragment :=
  { fragRegistered with processing_error := some "old failure" }

def dbWithError : DB := ⟨[day15], [fragWithError], 2, 2⟩

/-- A successful engine result (the integration test's shape, 6 seconds). -/
def resultOk : TranscriptionResult :=
  { text := "Это тестовая транскрипция аудиофайла",
    segments := [⟨0, 3, "Это тестовая"⟩, ⟨3, 6, "транскрипция аудиофайла"⟩],
    language := "ru", duration := 6, model := "large-v3" }

/-- An engine whose every invocation raises (the repository's own retry
tests mock exactly this behaviour). -/
def alwaysFailingEngine : Nat → String → Except String (Option TranscriptionResult) :=
  fun _ _ => .error "Whisper Failed"

/-- An engine whose every invocation fails inside the adapter, which
catches the exception and hands the orchestrator `None`. -/
def alwaysNoneEngine : Nat → String → Except String (Option TranscriptionResult) :=
  fun _ _ => .ok none

/-- A file still being written: 100 bytes now, 200 bytes half a second
later. -/
def growingFile : Nat → Option Nat :=
  fun t => if t < 500 then some 100 else some 200

/-- A file whose `stat()` raises (vanished / permission denied). -/
def vanishedFile : Nat → Option Nat := fun _ => none

/-- Registering the scenario path and then processing it twice with the
same successful engine result — the re-processing the duplicate-discovery
races permit. -/
def doubleProcessOps : List CoreOp :=
  [.register demoParts,
   .transcribe 1 (.ok (some resultOk)),
   .transcribe 1 (.ok (some resultOk))]

/-- The same trace without the second, re-processing transcription. -/
def singleProcessOps : List CoreOp :=
  [.register demoParts, .transcribe 1 (.ok (some resultOk))]

/-- Two direct registry inserts of Fragment rows carrying the same file
path (after inserting their Day): what the declared schema constraints
admit. -/
def dupPathDB : Option DB :=
  (registryInsertDay emptyDB (freshDay emptyDB ⟨2024, 1, 15⟩)).bind fun db1 =>
    (registryInsertFragment db1 fragRegistered).bind fun db2 =>
      registryInsertFragment db2 fragRegistered

/-! ## Helper lemmas about the list-backed registry -/

/-- `find?` commutes with a map that does not disturb the predicate on
the list's members. -/
theorem find?_map_invariant {α : Type} (u : α → α) (p : α → Bool) (l : List α)
    (hu : ∀ x ∈ l, p (u x) = p x) :
    (l.map u).find? p = (l.find? p).map u := by
  induction l with
  | nil => rfl
  | cons a l ih =>
    by_cases h : p a = true
    · rw [List.map_cons, List.find?_cons_of_pos _ ((hu a (List.mem_cons_self a l)).trans h),
        List.find?_cons_of_pos _ h, Option.map_some']
    · rw [List.map_cons,
        List.find?_cons_of_neg _ (by simp [hu a (List.mem_cons_self a l), h]),
        List.find?_cons_of_neg _ (by simp [h]),
        ih (fun x hx => hu x (List.mem_cons_of_mem _ hx))]

/-- Registration of a new path whose Day row already exists: both commit
outcomes, written out. -/
theorem add_file_day_present (fs : String → Option Nat) (nowT : Time)
    (c1ok c2ok : Bool) (db : DB) (parts : List String) (ds : String) (d : Date)
    (day : Day) (sz : Nat)
    (hds : extract_date_from_path parts = some ds)
    (hd : parseDateYMD ds = some d)
    (hday : findDayByDate db d = some day)
    (hnone : findFragmentByPath db (pathStr parts) = none)
    (hfs : fs (pathStr parts) = some sz) :
    add_file_to_database fs nowT c1ok c2ok db parts
      = if c2ok then
          (commitFragmentAndCount db (newFragment db day parts
              (extract_start_time_from_filename (pathName parts) d nowT) sz) day,
           some (newFragment db day parts
              (extract_start_time_from_filename (pathName parts) d nowT) sz))
        else (db, none) := by
  unfold add_file_to_database
  simp only [hds, hd, hday, hnone, hfs]

/-- Registration of a new path with no Day row yet: the Day commit happens
first and survives either outcome of the fragment commit. -/
theorem add_file_day_absent (fs : String → Option Nat) (nowT : Time)
    (c2ok : Bool) (db : DB) (parts : List String) (ds : String) (d : Date)
    (sz : Nat)
    (hds : extract_date_from_path parts = some ds)
    (hd : parseDateYMD ds = some d)
    (hday : findDayByDate db d = none)
    (hnone : findFragmentByPath db (pathStr parts) = none)
    (hfs : fs (pathStr parts) = some sz) :
    add_file_to_database fs nowT true c2ok db parts
      = if c2ok then
          (commitFragmentAndCount (insertDayRow db (freshDay db d))
             (newFragment (insertDayRow db (freshDay db d)) (freshDay db d) parts
                (extract_start_time_from_filename (pathName parts) d nowT) sz)
             (freshDay db d),
           some (newFragment (insertDayRow db (freshDay db d)) (freshDay db d) parts
                (extract_start_time_from_filename (pathName parts) d nowT) sz))
        else (insertDayRow db (freshDay db d), none) := by
  have hnone1 : findFragmentByPath (insertDayRow db (freshDay db d))
      (pathStr parts) = none := hnone
  unfold add_file_to_database
  simp only [hds, hd, hday, hnone1, hfs, if_true]

/-- Registration short-circuit: an already registered path returns the
stored row and performs no write (file_watcher.py lines 227-232). -/
theorem add_file_existing (fs : String → Option Nat) (nowT : Time)
    (c1ok c2ok : Bool) (db : DB) (parts : List String) (ds : String) (d : Date)
    (day : Day) (f0 : Fragment)
    (hds : extract_date_from_path parts = some ds)
    (hd : parseDateYMD ds = some d)
    (hday : findDayByDate db d = some day)
    (hf : findFragmentByPath db (pathStr parts) = some f0) :
    add_file_to_database fs nowT c1ok c2ok db parts = (db, some f0) := by
  unfold add_file_to_database
  simp only [hds, hd, hday, hf]

/-- The Fragment-plus-counter commit adds exactly one row under the
committed path. -/
theorem countPath_commit (db1 : DB) (frag : Fragment) (day : Day) (p : String)
    (hp : frag.file_path = p) :
    countPath (commitFragmentAndCount db1 frag day) p = countPath db1 p + 1 := by
  unfold countPath commitFragmentAndCount updateDay
  simp [List.filter_append, hp]

/-- After the Fragment-plus-counter commit, the Day row for the commit's
date is the looked-up row with its count incremented. -/
theorem dayFind_commit_present (db1 : DB) (frag : Fragment) (day : Day) (d : Date)
    (hfind : findDayByDate db1 d = some day)
    (huniq : ∀ b ∈ db1.days, b.id = day.id → b = day) :
    findDayByDate (commitFragmentAndCount db1 frag day) d
      = some { day with total_fragments := day.total_fragments + 1 } := by
  have hfind' : List.find? (fun x => decide (x.date = d)) db1.days = some day := hfind
  show List.find? (fun x => decide (x.date = d))
      (db1.days.map (fun g =>
        if g.id = ({ day with total_fragments := day.total_fragments + 1} : Day).id
        then { day with total_fragments := day.total_fragments + 1} else g))
      = some { day with total_fragments := day.total_fragments + 1}
  rw [find?_map_invariant _ _ _ ?_, hfind']
  · show some (if day.id = ({ day with
          total_fragments := day.total_fragments + 1 } : Day).id
        then ({ day with total_fragments := day.total_fragments + 1 } : Day)
        else day) = some { day with total_fragments := day.total_fragments + 1}
    rw [if_pos rfl]
  · intro x hx
    by_cases hxq : x.id = day.id
    · have hxd : x = day := huniq x hx hxq
      subst hxd
      rw [if_pos (rfl : x.id = x.id)]
    · rw [if_neg hxq]

/-- With no Day row for the date yet, the lazy Day insert followed by the
Fragment-plus-counter commit leaves exactly the fresh Day with count 1. -/
theorem dayFind_commit_absent (db : DB) (frag : Fragment) (d : Date)
    (hday : findDayByDate db d = none)
    (hbound : ∀ b ∈ db.days, b.id < db.nextDayId) :
    findDayByDate (commitFragmentAndCount (insertDayRow db (freshDay db d))
        frag (freshDay db d)) d
      = some { freshDay db d with
          total_fragments := (freshDay db d).total_fragments + 1 } := by
  have hday' : List.find? (fun x => decide (x.date = d)) db.days = none := hday
  show List.find? (fun x => decide (x.date = d))
      ((db.days ++ [freshDay db d]).map (fun g =>
        if g.id = ({ freshDay db d with
            total_fragments := (freshDay db d).total_fragments + 1} : Day).id
        then { freshDay db d with
            total_fragments := (freshDay db d).total_fragments + 1} else g))
      = some { freshDay db d with
          total_fragments := (freshDay db d).total_fragments + 1}
  rw [List.map_append, List.find?_append]
  have hdays : db.days.map (fun g =>
      if g.id = ({ freshDay db d with
          total_fragments := (freshDay db d).total_fragments + 1} : Day).id
      then { freshDay db d with
          total_fragments := (freshDay db d).total_fragments + 1} else g)
      = db.days := by
    rw [List.map_congr_left (g := id) ?_, List.map_id]
    intro a ha
    show (if a.id = db.nextDayId then _ else a) = a
    rw [if_neg (Nat.ne_of_lt (hbound a ha))]
  rw [hdays, hday']
  show Option.or none (List.find? _ _) = _
  rw [List.map_cons]
  rw [List.find?_cons_of_pos _ ?_]
  · show some (if (freshDay db d).id = db.nextDayId then _ else freshDay db d) = _
    rw [if_pos (show (freshDay db d).id = db.nextDayId from rfl)]
  · show decide ((if (freshDay db d).id = db.nextDayId then ({ freshDay db d with
        total_fragments := (freshDay db d).total_fragments + 1} : Day)
      else freshDay db d).date = d) = true
    rw [if_pos (show (freshDay db d).id = db.nextDayId from rfl)]
    show decide (d = d) = true
    simp

/-- The committed fragment becomes the row `find?` returns for its path. -/
theorem findPath_commit (db1 : DB) (frag : Fragment) (day : Day) (p : String)
    (hnone : findFragmentByPath db1 p = none) (hp : frag.file_path = p) :
    findFragmentByPath (commitFragmentAndCount db1 frag day) p = some frag := by
  have hnone' : List.find? (fun f => decide (f.file_path = p)) db1.fragments
      = none := hnone
  show List.find? (fun f => decide (f.file_path = p))
      (db1.fragments ++ [frag]) = some frag
  rw [List.find?_append, hnone', List.find?_cons_of_pos _ (by simp [hp])]
  rfl

/-! ## Toolkit for the duration-conservation induction -/

theorem fragsDurSum_eq_contrib (l : List Fragment) (i : Nat) :
    fragsDurSum l i = (l.map (fragContrib i)).sum := by
  induction l with
  | nil => rfl
  | cons a l ih =>
    rw [List.map_cons, List.sum_cons, ← ih]
    show ((List.filter _ (a :: l)).map _).sum = _
    rw [List.filter_cons]
    by_cases h : (decide (a.day_id = i) && a.transcribed) = true
    · rw [if_pos h, List.map_cons, List.sum_cons]
      show _ = (if a.day_id = i && a.transcribed then a.duration_seconds.getD 0 else 0) + _
      rw [if_pos h]
      rfl
    · rw [if_neg h]
      show fragsDurSum l i = (if a.day_id = i && a.transcribed then a.duration_seconds.getD 0 else 0) + _
      rw [if_neg h, zero_add]

/-- An untranscribed fragment contributes nothing. -/
theorem fragContrib_untranscribed (i : Nat) (f : Fragment)
    (h : f.transcribed = false) : fragContrib i f = 0 := by
  unfold fragContrib
  rw [if_neg]
  simp [h]

/-- Appending one fragment adds its contribution. -/
theorem fragsDurSum_append_one (l : List Fragment) (f : Fragment) (i : Nat) :
    fragsDurSum (l ++ [f]) i = fragsDurSum l i + fragContrib i f := by
  rw [fragsDurSum_eq_contrib, fragsDurSum_eq_contrib, List.map_append,
    List.sum_append, List.map_cons]
  show _ + (fragContrib i f + List.sum List.nil) = _
  rw [List.sum_nil, add_zero]

/-- Mapping a row-replacement that touches only the distinguished member
shifts the contribution sum by that member's delta. -/
theorem contribSum_update (s t : List Fragment) (f : Fragment)
    (u : Fragment → Fragment) (i : Nat)
    (hs : ∀ g ∈ s, u g = g) (ht : ∀ g ∈ t, u g = g) :
    (((s ++ f :: t).map u).map (fragContrib i)).sum
      = ((s ++ f :: t).map (fragContrib i)).sum
        - fragContrib i f + fragContrib i (u f) := by
  rw [List.map_append, List.map_cons, List.map_append, List.map_cons,
    List.map_append, List.map_cons, List.sum_append, List.sum_cons,
    List.sum_append, List.sum_cons, List.map_congr_left hs,
    List.map_congr_left ht, List.map_id', List.map_id']
  ring

/-- `updateFragment` leaves the Day table untouched. -/
theorem dayDurById_updateFragment (db : DB) (f : Fragment) (i : Nat) :
    dayDurById (updateFragment db f) i = dayDurById db i := rfl

/-- `dayFragSum` only reads the Fragment table. -/
theorem dayFragSum_insertDayRow (db : DB) (day : Day) (i : Nat) :
    dayFragSum (insertDayRow db day) i = dayFragSum db i := rfl

theorem sum_zero_list (l : List Fragment) : (l.map (fun _ => (0:ℚ))).sum = 0 := by
  induction l with
  | nil => rfl
  | cons a l ih => rw [List.map_cons, List.sum_cons, ih, add_zero]

/-- A day id no fragment refers to collects no duration. -/
theorem fragsDurSum_eq_zero (l : List Fragment) (i : Nat)
    (h : ∀ g ∈ l, g.day_id ≠ i) : fragsDurSum l i = 0 := by
  rw [fragsDurSum_eq_contrib]
  have hz : ∀ g ∈ l, fragContrib i g = (fun _ : Fragment => (0:ℚ)) g := by
    intro g hg
    unfold fragContrib
    rw [if_neg]
    intro hc
    simp only [Bool.and_eq_true, decide_eq_true_eq] at hc
    exact h g hg hc.1
  rw [List.map_congr_left hz, sum_zero_list]

/-- Replacing the (unique) row with `f`'s id by `f'` shifts a day's
fragment-duration sum by the contribution delta. -/
theorem dayFragSum_update_delta (db : DB) (f f' : Fragment) (j : Nat)
    (hmem : f ∈ db.fragments) (hnd : (db.fragments.map Fragment.id).Nodup)
    (hid : f'.id = f.id) :
    dayFragSum (updateFragment db f') j
      = dayFragSum db j - fragContrib j f + fragContrib j f' := by
  obtain ⟨s, t, hl⟩ := List.append_of_mem hmem
  have hnotmem : ∀ g, (g ∈ s ∨ g ∈ t) → g.id ≠ f.id := by
    rw [hl, List.map_append, List.map_cons] at hnd
    have hmid := List.nodup_middle.mp hnd
    intro g hg hgid
    apply (List.nodup_cons.mp hmid).1
    rw [← hgid]
    rcases hg with hg | hg
    · exact List.mem_append.mpr (Or.inl (List.mem_map.mpr ⟨g, hg, rfl⟩))
    · exact List.mem_append.mpr (Or.inr (List.mem_map.mpr ⟨g, hg, rfl⟩))
  show fragsDurSum (db.fragments.map (fun g => if g.id = f'.id then f' else g)) j
      = fragsDurSum db.fragments j - fragContrib j f + fragContrib j f'
  rw [hl, fragsDurSum_eq_contrib, fragsDurSum_eq_contrib,
    contribSum_update s t f _ j
      (fun g hg => if_neg (fun hc => hnotmem g (Or.inl hg) (hid ▸ hc)))
      (fun g hg => if_neg (fun hc => hnotmem g (Or.inr hg) (hid ▸ hc)))]
  rw [if_pos hid.symm]

/-- `insertDayRow` with the fresh Day keeps the registry well-formed. -/
theorem WF_insertDayRow (db : DB) (d : Date) (hwf : WF db) :
    WF (insertDayRow db (freshDay db d)) := by
  obtain ⟨hfb, hfnd, hdb, hdnd, hfd⟩ := hwf
  refine ⟨hfb, hfnd, ?_, ?_, ?_⟩
  · intro x hx
    rcases List.mem_append.mp hx with hx | hx
    · exact Nat.lt_succ_of_lt (hdb x hx)
    · rw [List.mem_singleton.mp hx]
      exact Nat.lt_succ_self _
  · show ((db.days ++ [freshDay db d]).map Day.id).Nodup
    rw [List.map_append]
    refine hdnd.append (List.nodup_singleton _) ?_
    intro a ha hb
    rcases List.mem_map.mp ha with ⟨g, hg, rfl⟩
    have hgid : g.id = db.nextDayId := by simpa using hb
    exact absurd hgid (Nat.ne_of_lt (hdb g hg))
  · intro f hf
    exact Nat.lt_succ_of_lt (hfd f hf)

/-- The Fragment-plus-counter commit keeps the registry well-formed. -/
theorem WF_commit (db1 : DB) (day : Day) (parts : List String) (st : DateTime)
    (sz : Nat) (hwf : WF db1) (hday : day ∈ db1.days) :
    WF (commitFragmentAndCount db1 (newFragment db1 day parts st sz) day) := by
  obtain ⟨hfb, hfnd, hdb, hdnd, hfd⟩ := hwf
  have hupd : ∀ a : Day,
      (if a.id = ({ day with total_fragments := day.total_fragments + 1 } : Day).id
        then ({ day with total_fragments := day.total_fragments + 1 } : Day)
        else a).id = a.id := by
    intro a
    by_cases h : a.id = day.id
    · rw [if_pos h]
      exact h.symm
    · rw [if_neg h]
  have hids : (commitFragmentAndCount db1 (newFragment db1 day parts st sz)
      day).days.map Day.id = db1.days.map Day.id := by
    show (db1.days.map _).map Day.id = _
    rw [List.map_map]
    exact List.map_congr_left (fun a _ => hupd a)
  refine ⟨?_, ?_, ?_, ?_, ?_⟩
  · intro f hf
    show f.id < db1.nextFragmentId + 1
    rcases List.mem_append.mp hf with hf | hf
    · exact Nat.lt_succ_of_lt (hfb f hf)
    · rw [List.mem_singleton.mp hf]
      exact Nat.lt_succ_self _
  · show ((db1.fragments ++ [newFragment db1 day parts st sz]).map Fragment.id).Nodup
    rw [List.map_append]
    refine hfnd.append (List.nodup_singleton _) ?_
    intro a ha hb
    rcases List.mem_map.mp ha with ⟨g, hg, rfl⟩
    have hgid : g.id = db1.nextFragmentId := by simpa using hb
    exact absurd hgid (Nat.ne_of_lt (hfb g hg))
  · intro x hx
    rcases List.mem_map.mp hx with ⟨g, hg, rfl⟩
    show _ < db1.nextDayId
    rw [hupd g]
    exact hdb g hg
  · rw [hids]
    exact hdnd
  · intro f hf
    rcases List.mem_append.mp hf with hf | hf
    · exact hfd f hf
    · rw [List.mem_singleton.mp hf]
      exact hdb day hday

/-- Rewriting one Fragment row in place (same id, same day reference)
keeps the registry well-formed. -/
theorem WF_updateFragment (db : DB) (f f' : Fragment) (hwf : WF db)
    (hmem : f ∈ db.fragments) (_hid : f'.id = f.id)
    (hday : f'.day_id = f.day_id) :
    WF (updateFragment db f') := by
  obtain ⟨hfb, hfnd, hdb, hdnd, hfd⟩ := hwf
  have hupd : ∀ a : Fragment,
      (if a.id = f'.id then f' else a).id = a.id := by
    intro a
    by_cases h : a.id = f'.id
    · rw [if_pos h]
      exact h.symm
    · rw [if_neg h]
  refine ⟨?_, ?_, hdb, hdnd, ?_⟩
  · intro g hg
    rcases List.mem_map.mp hg with ⟨a, ha, rfl⟩
    show (if a.id = f'.id then f' else a).id < db.nextFragmentId
    rw [hupd a]
    exact hfb a ha
  · show ((db.fragments.map _).map Fragment.id).Nodup
    rw [List.map_map]
    have hcg : List.map (Fragment.id ∘ fun g => if g.id = f'.id then f' else g)
        db.fragments = List.map Fragment.id db.fragments :=
      List.map_congr_left (fun a _ => hupd a)
    rw [hcg]
    exact hfnd
  · intro g hg
    rcases List.mem_map.mp hg with ⟨a, ha, rfl⟩
    show (if a.id = f'.id then f' else a).day_id < db.nextDayId
    by_cases h : a.id = f'.id
    · rw [if_pos h, hday]
      exact hfd f hmem
    · rw [if_neg h]
      exact hfd a ha

/-- Rewriting one Day row in place keeps the registry well-formed
(`updateDay` preserves every stored id). -/
theorem WF_updateDay (db : DB) (day' : Day) (hwf : WF db) :
    WF (updateDay db day') := by
  obtain ⟨hfb, hfnd, hdb, hdnd, hfd⟩ := hwf
  have hupd : ∀ a : Day, (if a.id = day'.id then day' else a).id = a.id := by
    intro a
    by_cases h : a.id = day'.id
    · rw [if_pos h]
      exact h.symm
    · rw [if_neg h]
  refine ⟨hfb, hfnd, ?_, ?_, hfd⟩
  · intro x hx
    rcases List.mem_map.mp hx with ⟨a, ha, rfl⟩
    show (if a.id = day'.id then day' else a).id < db.nextDayId
    rw [hupd a]
    exact hdb a ha
  · show ((db.days.map _).map Day.id).Nodup
    rw [List.map_map]
    have hcg : List.map (Day.id ∘ fun g => if g.id = day'.id then day' else g)
        db.days = List.map Day.id db.days :=
      List.map_congr_left (fun a _ => hupd a)
    rw [hcg]
    exact hdnd

/-- `updateDay` never touches the Fragment table. -/
theorem dayFragSum_updateDay (db : DB) (d0 : Day) (j : Nat) :
    dayFragSum (updateDay db d0) j = dayFragSum db j := rfl

/-- The lazily created Day starts consistent: no fragment refers to its
fresh id. -/
theorem inv_insertDayRow (db : DB) (d : Date) (hwf : WF db)
    (hinv : DurationInvariant db) :
    DurationInvariant (insertDayRow db (freshDay db d)) := by
  obtain ⟨hfb, hfnd, hdb, hdnd, hfd⟩ := hwf
  intro day hday
  rcases List.mem_append.mp hday with h | h
  · have h1 : dayFragSum (insertDayRow db (freshDay db d)) day.id
        = dayFragSum db day.id := rfl
    rw [h1]
    exact hinv day h
  · rw [List.mem_singleton.mp h]
    show (0:ℚ) = dayFragSum (insertDayRow db (freshDay db d)) (freshDay db d).id
    have h1 : dayFragSum (insertDayRow db (freshDay db d)) (freshDay db d).id
        = fragsDurSum db.fragments db.nextDayId := rfl
    rw [h1, fragsDurSum_eq_zero db.fragments db.nextDayId
      (fun g hg => Nat.ne_of_lt (hfd g hg))]

/-- The Fragment-plus-counter commit preserves duration conservation: the
new row is untranscribed and no Day duration moves. -/
theorem inv_commit (db1 : DB) (day : Day) (parts : List String) (st : DateTime)
    (sz : Nat) (hinv : DurationInvariant db1) (hday : day ∈ db1.days) :
    DurationInvariant
      (commitFragmentAndCount db1 (newFragment db1 day parts st sz) day) := by
  have hsum : ∀ j, dayFragSum (commitFragmentAndCount db1
      (newFragment db1 day parts st sz) day) j = dayFragSum db1 j := by
    intro j
    show fragsDurSum (db1.fragments ++ [newFragment db1 day parts st sz]) j
        = fragsDurSum db1.fragments j
    rw [fragsDurSum_append_one, fragContrib_untranscribed j _ rfl, add_zero]
  intro g' hg'
  rcases List.mem_map.mp hg' with ⟨g, hg, rfl⟩
  rw [hsum]
  by_cases h : g.id = day.id
  · show (if g.id = day.id
        then ({ day with total_fragments := day.total_fragments + 1 } : Day)
        else g).total_duration_seconds
      = dayFragSum db1 (if g.id = day.id
        then ({ day with total_fragments := day.total_fragments + 1 } : Day)
        else g).id
    rw [if_pos h]
    exact hinv day hday
  · show (if g.id = day.id
        then ({ day with total_fragments := day.total_fragments + 1 } : Day)
        else g).total_duration_seconds
      = dayFragSum db1 (if g.id = day.id
        then ({ day with total_fragments := day.total_fragments + 1 } : Day)
        else g).id
    rw [if_neg h]
    exact hinv g hg

/-- Recording a transcription error touches no duration data. -/
theorem inv_transcribe_error (db : DB) (fid : Nat) (nowDT : DateTime)
    (e : String) (hwf : WF db) (hinv : DurationInvariant db) :
    DurationInvariant (transcribe_fragment_db db fid nowDT (.error e)) := by
  obtain ⟨hfb, hfnd, hdb, hdnd, hfd⟩ := hwf
  simp only [transcribe_fragment_db]
  rcases hff : findFragmentById db fid with _ | f
  · exact hinv
  · show DurationInvariant (updateFragment db
      { f with processing_error := some e, retry_count := f.retry_count + 1 })
    intro day hday
    have hdelta := dayFragSum_update_delta db f
      { f with processing_error := some e, retry_count := f.retry_count + 1 }
      day.id (List.mem_of_find?_eq_some hff) hfnd rfl
    rw [hdelta]
    have hceq : fragContrib day.id ({ f with
        processing_error := some e,
        retry_count := f.retry_count + 1 } : Fragment) = fragContrib day.id f := rfl
    rw [hceq, sub_add_cancel]
    exact hinv day hday

/-- A first-time successful transcription commit preserves duration
conservation: the fragment's reported duration lands simultaneously in
the per-day sum and in the Day row. -/
theorem inv_transcribe_success (db : DB) (fid : Nat) (nowDT : DateTime)
    (r : TranscriptionResult) (hwf : WF db) (hinv : DurationInvariant db)
    (hsafe : db.fragments.all (fun f => f.id ≠ fid || !f.transcribed) = true) :
    DurationInvariant (transcribe_fragment_db db fid nowDT (.ok (some r))) := by
  obtain ⟨hfb, hfnd, hdb, hdnd, hfd⟩ := hwf
  simp only [transcribe_fragment_db]
  rcases hff : findFragmentById db fid with _ | f
  · exact hinv
  · have hmem := List.mem_of_find?_eq_some hff
    have hfid : f.id = fid := by simpa using List.find?_some hff
    have huntr : f.transcribed = false := by
      have h2 := (List.all_eq_true.mp hsafe) f hmem
      simp [hfid] at h2
      exact h2
    have hdelta : ∀ j, dayFragSum (updateFragment db
        { f with transcript_text := some r.text,
                 whisper_segments := some r.segments,
                 whisper_model_used := some r.model,
                 transcribed := true,
                 transcription_completed_at := some nowDT,
                 duration_seconds := some r.duration }) j
        = dayFragSum db j + (if f.day_id = j then r.duration else 0) := by
      intro j
      rw [dayFragSum_update_delta db f
          { f with transcript_text := some r.text,
                   whisper_segments := some r.segments,
                   whisper_model_used := some r.model,
                   transcribed := true,
                   transcription_completed_at := some nowDT,
                   duration_seconds := some r.duration } j hmem hfnd rfl,
        fragContrib_untranscribed j f huntr, sub_zero]
      congr 1
      show (if (decide (f.day_id = j) && true) = true
          then (some r.duration).getD 0 else 0)
        = if f.day_id = j then r.duration else 0
      rw [Bool.and_true]
      by_cases hj : f.day_id = j
      · rw [if_pos (show decide (f.day_id = j) = true by simp [hj]), if_pos hj]
        rfl
      · rw [if_neg (show ¬decide (f.day_id = j) = true by simp [hj]), if_neg hj]
  -- the Day-side update
    show DurationInvariant (if r.duration ≠ 0 then _ else _)
    by_cases hdur : r.duration = 0
    · rw [if_neg (not_not_intro hdur)]
      intro day hday
      rw [hdelta day.id, hdur, ite_self, add_zero]
      exact hinv day hday
    · rw [if_pos hdur]
      rcases hfd2 : findDayById (updateFragment db
          { f with transcript_text := some r.text,
                   whisper_segments := some r.segments,
                   whisper_model_used := some r.model,
                   transcribed := true,
                   transcription_completed_at := some nowDT,
                   duration_seconds := some r.duration }) f.day_id with _ | day0
      · intro day hday
        have hne : day.id ≠ f.day_id := by
          have := List.find?_eq_none.mp hfd2 day hday
          simpa using this
        rw [hdelta day.id, if_neg (fun hc => hne hc.symm), add_zero]
        exact hinv day hday
      · have hd0mem : day0 ∈ db.days := List.mem_of_find?_eq_some hfd2
        have hd0id : day0.id = f.day_id := by simpa using List.find?_some hfd2
        intro g' hg'
        rcases List.mem_map.mp hg' with ⟨g, hg, rfl⟩
        rw [dayFragSum_updateDay]
        rw [hdelta]
        by_cases h : g.id = day0.id
        · show (if g.id = day0.id
              then ({ day0 with total_duration_seconds :=
                  day0.total_duration_seconds + r.duration } : Day)
              else g).total_duration_seconds
            = dayFragSum db (if g.id = day0.id
              then ({ day0 with total_duration_seconds :=
                  day0.total_duration_seconds + r.duration } : Day)
              else g).id
              + (if f.day_id = (if g.id = day0.id
                  then ({ day0 with total_duration_seconds :=
                      day0.total_duration_seconds + r.duration } : Day)
                  else g).id then r.duration else 0)
          rw [if_pos h]
          show day0.total_duration_seconds + r.duration
            = dayFragSum db day0.id + (if f.day_id = day0.id then r.duration else 0)
          rw [if_pos hd0id.symm, hinv day0 hd0mem]
        · show (if g.id = day0.id
              then ({ day0 with total_duration_seconds :=
                  day0.total_duration_seconds + r.duration } : Day)
              else g).total_duration_seconds
            = dayFragSum db (if g.id = day0.id
              then ({ day0 with total_duration_seconds :=
                  day0.total_duration_seconds + r.duration } : Day)
              else g).id
              + (if f.day_id = (if g.id = day0.id
                  then ({ day0 with total_duration_seconds :=
                      day0.total_duration_seconds + r.duration } : Day)
                  else g).id then r.duration else 0)
          rw [if_neg h]
          show g.total_duration_seconds
            = dayFragSum db g.id + (if f.day_id = g.id then r.duration else 0)
          have hne2 : ¬ f.day_id = g.id := fun hc => h (hc.symm.trans hd0id.symm)
          rw [if_neg hne2, add_zero]
          exact hinv g hg

/-- Inserting the fresh Day (duration 0) never lowers any day's
cumulative duration. -/
theorem mono_insertDayRow (db : DB) (d : Date) (i : Nat) :
    dayDurById db i ≤ dayDurById (insertDayRow db (freshDay db d)) i := by
  unfold dayDurById findDayById
  show ((db.days.find? _).map _).getD 0
      ≤ (((db.days ++ [freshDay db d]).find? _).map _).getD 0
  rw [List.find?_append]
  rcases h : db.days.find? (fun day => decide (day.id = i)) with _ | day
  · rw [h]
    cases hp : decide (db.nextDayId = i) with
    | false => simp [List.find?_cons, hp, freshDay]
    | true => simp [List.find?_cons, hp, freshDay]
  · rw [h]
    exact le_refl _

/-- The Fragment-plus-counter commit changes no day's cumulative
duration. -/
theorem mono_commit (db1 : DB) (frag : Fragment) (day : Day) (i : Nat)
    (huniq : ∀ b ∈ db1.days, b.id = day.id → b = day) :
    dayDurById (commitFragmentAndCount db1 frag day) i = dayDurById db1 i := by
  unfold dayDurById findDayById
  show (((db1.days.map (fun g =>
      if g.id = ({ day with total_fragments := day.total_fragments + 1 } : Day).id
      then ({ day with total_fragments := day.total_fragments + 1 } : Day)
      else g)).find? (fun x => decide (x.id = i))).map
      Day.total_duration_seconds).getD 0
    = ((db1.days.find? (fun x => decide (x.id = i))).map
      Day.total_duration_seconds).getD 0
  rw [find?_map_invariant _ _ _ ?_]
  · rcases h : db1.days.find? (fun x => decide (x.id = i)) with _ | g
    · rw [h]
      rfl
    · rw [h]
      by_cases hq : g.id = day.id
      · have hgd : g = day := huniq g (List.mem_of_find?_eq_some h) hq
        subst hgd
        show ((some (if g.id = g.id then _ else g)).map
          Day.total_duration_seconds).getD 0 = _
        rw [if_pos rfl]
        rfl
      · show ((some (if g.id = day.id then _ else g)).map
          Day.total_duration_seconds).getD 0 = _
        rw [if_neg hq]
  · intro x _
    by_cases hxq : x.id = day.id
    · rw [if_pos hxq]
      show decide (day.id = i) = decide (x.id = i)
      rw [hxq]
    · rw [if_neg hxq]

/-- A successful transcription commit with non-negative duration never
lowers any day's cumulative duration. -/
theorem mono_transcribe_success (db : DB) (fid : Nat) (nowDT : DateTime)
    (r : TranscriptionResult) (hwf : WF db) (hr : 0 ≤ r.duration) (i : Nat) :
    dayDurById db i
      ≤ dayDurById (transcribe_fragment_db db fid nowDT (.ok (some r))) i := by
  obtain ⟨hfb, hfnd, hdb, hdnd, hfd⟩ := hwf
  simp only [transcribe_fragment_db]
  rcases hff : findFragmentById db fid with _ | f
  · exact le_refl _
  · show dayDurById db i ≤ dayDurById (if r.duration ≠ 0 then _ else _) i
    by_cases hdur : r.duration = 0
    · rw [if_neg (not_not_intro hdur)]
      exact le_refl _
    · rw [if_pos hdur]
      rcases hfd2 : findDayById (updateFragment db
          { f with transcript_text := some r.text,
                   whisper_segments := some r.segments,
                   whisper_model_used := some r.model,
                   transcribed := true,
                   transcription_completed_at := some nowDT,
                   duration_seconds := some r.duration }) f.day_id with _ | day0
      · exact le_refl _
      · have hd0mem : day0 ∈ db.days := List.mem_of_find?_eq_some hfd2
        show dayDurById db i ≤ ((((db.days.map (fun g =>
            if g.id = ({ day0 with total_duration_seconds :=
                day0.total_duration_seconds + r.duration } : Day).id
            then ({ day0 with total_duration_seconds :=
                day0.total_duration_seconds + r.duration } : Day)
            else g))).find? (fun x => decide (x.id = i))).map
            Day.total_duration_seconds).getD 0
        rw [find?_map_invariant _ _ _ ?_]
        · rcases h : db.days.find? (fun x => decide (x.id = i)) with _ | g
          · rw [h]
            show dayDurById db i ≤ (0:ℚ)
            unfold dayDurById findDayById
            rw [h]
            exact le_refl _
          · rw [h]
            have hdd : dayDurById db i = g.total_duration_seconds := by
              unfold dayDurById findDayById
              rw [h]
              rfl
            rw [hdd]
            by_cases hq : g.id = day0.id
            · have hgd : g = day0 :=
                List.inj_on_of_nodup_map hdnd (List.mem_of_find?_eq_some h) hd0mem hq
              subst hgd
              show g.total_duration_seconds
                ≤ ((some (if g.id = g.id then _ else g)).map
                  Day.total_duration_seconds).getD 0
              rw [if_pos rfl]
              show g.total_duration_seconds ≤ g.total_duration_seconds + r.duration
              exact le_add_of_nonneg_right hr
            · show g.total_duration_seconds
                ≤ ((some (if g.id = day0.id then _ else g)).map
                  Day.total_duration_seconds).getD 0
              rw [if_neg hq]
              exact le_refl _
        · intro x _
          by_cases hxq : x.id = day0.id
          · rw [if_pos hxq]
            show decide (day0.id = i) = decide (x.id = i)
            rw [hxq]
          · rw [if_neg hxq]

/-- Every outcome of a registration attempt, classified by the persisted
state it leaves. -/
theorem add_result_cases (fs : String → Option Nat) (nowT : Time) (db : DB)
    (parts : List String) :
    (add_file_to_database fs nowT true true db parts).1 = db
    ∨ (∃ d : Date, findDayByDate db d = none ∧
        (add_file_to_database fs nowT true true db parts).1
          = insertDayRow db (freshDay db d))
    ∨ (∃ (d : Date) (db1 : DB) (day : Day) (st : DateTime) (sz : Nat),
        ((db1 = db ∧ findDayByDate db d = some day) ∨
          (db1 = insertDayRow db (freshDay db d) ∧ findDayByDate db d = none ∧
            day = freshDay db d)) ∧
        (add_file_to_database fs nowT true true db parts).1
          = commitFragmentAndCount db1 (newFragment db1 day parts st sz) day) := by
  rcases hds : extract_date_from_path parts with _ | ds
  · left
    unfold add_file_to_database
    rw [hds]
  · rcases hd : parseDateYMD ds with _ | d
    · left
      unfold add_file_to_database
      simp only [hds, hd]
    · rcases hday : findDayByDate db d with _ | day
      · rcases hex : findFragmentByPath (insertDayRow db (freshDay db d))
            (pathStr parts) with _ | ex
        · rcases hfs : fs (pathStr parts) with _ | sz
          · right; left
            refine ⟨d, hday, ?_⟩
            unfold add_file_to_database
            simp only [hds, hd, hday, hex, hfs, if_true]
          · right; right
            refine ⟨d, insertDayRow db (freshDay db d), freshDay db d,
              extract_start_time_from_filename (pathName parts) d nowT, sz,
              Or.inr ⟨rfl, hday, rfl⟩, ?_⟩
            unfold add_file_to_database
            simp only [hds, hd, hday, hex, hfs, if_true]
        · right; left
          refine ⟨d, hday, ?_⟩
          unfold add_file_to_database
          simp only [hds, hd, hday, hex, if_true]
      · rcases hex : findFragmentByPath db (pathStr parts) with _ | ex
        · rcases hfs : fs (pathStr parts) with _ | sz
          · left
            unfold add_file_to_database
            simp only [hds, hd, hday, hex, hfs, if_true]
          · right; right
            refine ⟨d, db, day,
              extract_start_time_from_filename (pathName parts) d nowT, sz,
              Or.inl ⟨rfl, hday⟩, ?_⟩
            unfold add_file_to_database
            simp only [hds, hd, hday, hex, hfs, if_true]
        · left
          unfold add_file_to_database
          simp only [hds, hd, hday, hex, if_true]

/-- One core operation preserves well-formedness and duration
conservation (given its safety side condition) and never lowers a day's
cumulative duration (given a non-negative committed duration). -/
theorem step_preserves (fs : String → Option Nat) (nowT : Time)
    (nowDT : DateTime) (db : DB) (op : CoreOp)
    (hwf : WF db) (hinv : DurationInvariant db)
    (hsafe : safeOp db op = true) (hnn : nonNegOp op = true) :
    WF (stepOp fs nowT nowDT db op) ∧
    DurationInvariant (stepOp fs nowT nowDT db op) ∧
    ∀ i, dayDurById db i ≤ dayDurById (stepOp fs nowT nowDT db op) i := by
  cases op with
  | register parts =>
    have hstep : stepOp fs nowT nowDT db (.register parts)
        = (add_file_to_database fs nowT true true db parts).1 := rfl
    rw [hstep]
    rcases add_result_cases fs nowT db parts with h | ⟨d, hday, h⟩ |
      ⟨d, db1, day, st, sz, hcase, h⟩
    · rw [h]
      exact ⟨hwf, hinv, fun i => le_refl _⟩
    · rw [h]
      exact ⟨WF_insertDayRow db d hwf, inv_insertDayRow db d hwf hinv,
        fun i => mono_insertDayRow db d i⟩
    · have hfacts : WF db1 ∧ DurationInvariant db1 ∧ day ∈ db1.days ∧
          (∀ i, dayDurById db i ≤ dayDurById db1 i) := by
        rcases hcase with ⟨h1, hfound⟩ | ⟨h1, hnone, h2⟩
        · subst h1
          exact ⟨hwf, hinv, List.mem_of_find?_eq_some hfound, fun i => le_refl _⟩
        · subst h1
          subst h2
          exact ⟨WF_insertDayRow db d hwf, inv_insertDayRow db d hwf hinv,
            List.mem_append.mpr (Or.inr (List.mem_singleton.mpr rfl)),
            fun i => mono_insertDayRow db d i⟩
      obtain ⟨hw1, hi1, hmem1, hm1⟩ := hfacts
      rw [h]
      have huniq : ∀ b ∈ db1.days, b.id = day.id → b = day := fun b hb hbid =>
        List.inj_on_of_nodup_map hw1.2.2.2.1 hb hmem1 hbid
      refine ⟨WF_commit db1 day parts st sz hw1 hmem1,
        inv_commit db1 day parts st sz hi1 hmem1, ?_⟩
      intro i
      rw [mono_commit db1 _ day i huniq]
      exact hm1 i
  | transcribe fid engine =>
    have hstep : stepOp fs nowT nowDT db (.transcribe fid engine)
        = transcribe_fragment_db db fid nowDT engine := rfl
    rw [hstep]
    cases engine with
    | error e =>
      refine ⟨?_, inv_transcribe_error db fid nowDT e hwf hinv, ?_⟩
      · simp only [transcribe_fragment_db]
        rcases hff : findFragmentById db fid with _ | f
        · exact hwf
        · exact WF_updateFragment db f
            { f with processing_error := some e,
                     retry_count := f.retry_count + 1 }
            hwf (List.mem_of_find?_eq_some hff) rfl rfl
      · intro i
        simp only [transcribe_fragment_db]
        rcases hff : findFragmentById db fid with _ | f
        · exact le_refl _
        · exact le_refl _
    | ok o =>
      cases o with
      | none => exact ⟨hwf, hinv, fun i => le_refl _⟩
      | some r =>
        have hr : 0 ≤ r.duration := of_decide_eq_true hnn
        have hsafe' : db.fragments.all
            (fun f => f.id ≠ fid || !f.transcribed) = true := hsafe
        refine ⟨?_, inv_transcribe_success db fid nowDT r hwf hinv hsafe',
          fun i => mono_transcribe_success db fid nowDT r hwf hr i⟩
        simp only [transcribe_fragment_db]
        rcases hff : findFragmentById db fid with _ | f
        · exact hwf
        · show WF (if r.duration ≠ 0 then _ else _)
          have hwf2 : WF (updateFragment db
              { f with transcript_text := some r.text,
                       whisper_segments := some r.segments,
                       whisper_model_used := some r.model,
                       transcribed := true,
                       transcription_completed_at := some nowDT,
                       duration_seconds := some r.duration }) :=
            WF_updateFragment db f _ hwf (List.mem_of_find?_eq_some hff) rfl rfl
          by_cases hdur : r.duration = 0
          · rw [if_neg (not_not_intro hdur)]
            exact hwf2
          · rw [if_pos hdur]
            rcases hfd2 : findDayById (updateFragment db
                { f with transcript_text := some r.text,
                         whisper_segments := some r.segments,
                         whisper_model_used := some r.model,
                         transcribed := true,
                         transcription_completed_at := some nowDT,
                         duration_seconds := some r.duration }) f.day_id
                with _ | day0
            · exact hwf2
            · exact WF_updateDay _ _ hwf2

/-! ## Claim theorems -/

/-- C2 amended: a successful transcription commit writes the transcript
text, segments, engine identifier, duration and completion timestamp,
sets the transcribed flag, leaves the previously stored
`processing_error` untouched, and — in the same transition — adds the
reported duration to the owning Day's cumulative total. -/
theorem C2_success_commit_updates (db : DB) (fid : Nat) (f : Fragment)
    (r : TranscriptionResult) (nowDT : DateTime)
    (hf : findFragmentById db fid = some f)
    (hday : (findDayById db f.day_id).isSome) :
    findFragmentById (transcribe_fragment_db db fid nowDT (.ok (some r))) fid
      = some { f with transcript_text := some r.text,
                      whisper_segments := some r.segments,
                      whisper_model_used := some r.model,
                      transcribed := true,
                      transcription_completed_at := some nowDT,
                      duration_seconds := some r.duration,
                      processing_error := f.processing_error } ∧
    dayDurById (transcribe_fragment_db db fid nowDT (.ok (some r))) f.day_id
      = dayDurById db f.day_id + r.duration := by
  have hpf : f.id = fid := by simpa using List.find?_some hf
  obtain ⟨day, hday'⟩ := Option.isSome_iff_exists.mp hday
  have hdayid : day.id = f.day_id := by simpa using List.find?_some hday'
  have hshape : transcribe_fragment_db db fid nowDT (.ok (some r))
      = (let f' : Fragment :=
            { f with transcript_text := some r.text,
                     whisper_segments := some r.segments,
                     whisper_model_used := some r.model,
                     transcribed := true,
                     transcription_completed_at := some nowDT,
                     duration_seconds := some r.duration }
         let db' := updateFragment db f'
         if r.duration ≠ 0 then
           match findDayById db' f'.day_id with
           | some d0 =>
             updateDay db' { d0 with
               total_duration_seconds := d0.total_duration_seconds + r.duration }
           | none => db'
         else db') := by
    simp only [transcribe_fragment_db, hf]
  -- the fragment-row part, shared by every branch below
  have hufrag : ∀ f' : Fragment, f'.id = f.id →
      (db.fragments.map (fun g => if g.id = f'.id then f' else g)).find?
        (fun g => g.id = fid) = some f' := by
    intro f' hid
    have hf' : List.find? (fun g => decide (g.id = fid)) db.fragments = some f := hf
    rw [find?_map_invariant _ _ _ ?_, hf']
    · show some (if f.id = f'.id then f' else f) = some f'
      rw [if_pos (hid.symm ▸ rfl)]
    · intro x _
      by_cases hxq : x.id = f'.id
      · rw [if_pos hxq]
        show decide (f'.id = fid) = decide (x.id = fid)
        rw [hid.trans hpf, hxq.trans (hid.trans hpf)]
      · rw [if_neg hxq]
  -- the day-row part: adding to the found day's duration
  have huday : ∀ dur : ℚ,
      (db.days.map (fun g => if g.id = day.id then
          { day with total_duration_seconds := day.total_duration_seconds + dur }
        else g)).find? (fun g => g.id = f.day_id)
        = some { day with
            total_duration_seconds := day.total_duration_seconds + dur } := by
    intro dur
    have hday'' : List.find? (fun g => decide (g.id = f.day_id)) db.days = some day := hday'
    rw [find?_map_invariant _ _ _ ?_, hday'']
    · show some (if day.id = day.id then _ else day) = _
      rw [if_pos rfl]
    · intro x _
      by_cases hxq : x.id = day.id
      · rw [if_pos hxq]
        show decide (day.id = f.day_id) = decide (x.id = f.day_id)
        rw [hdayid, hxq.trans hdayid]
      · rw [if_neg hxq]
  by_cases hdur : r.duration = 0
  · rw [hshape]
    simp only [hdur, ne_eq, not_true_eq_false, if_false, ite_false]
    refine ⟨hufrag _ rfl, ?_⟩
    show dayDurById db f.day_id = dayDurById db f.day_id + 0
    rw [add_zero]
  · rw [hshape]
    simp only [ne_eq, hdur, not_false_eq_true, if_true, ite_true]
    have hdays : findDayById (updateFragment db
        { f with transcript_text := some r.text,
                 whisper_segments := some r.segments,
                 whisper_model_used := some r.model,
                 transcribed := true,
                 transcription_completed_at := some nowDT,
                 duration_seconds := some r.duration }) f.day_id
        = some day := hday'
    rw [hdays]
    refine ⟨hufrag _ rfl, ?_⟩
    show ((db.days.map _).find? _ |>.map Day.total_duration_seconds).getD 0 = _
    rw [huday r.duration]
    have hday3 : List.find? (fun d => decide (d.id = f.day_id)) db.days = some day := hday'
    show day.total_duration_seconds + r.duration = dayDurById db f.day_id + r.duration
    unfold dayDurById findDayById
    rw [hday3]
    rfl

/-- C1: the spec (and the repository's own retry tests, which configure
`max_retries` and expect the error text "Все N попыток неудачны" and
`retry_count = N`) demand N engine invocations with backoff for an
always-failing engine.  Evaluating `transcribe_fragment` at exactly the
tests' failing input shows a single invocation: the raised engine error is
recorded verbatim with `retry_count` bumped once, and when the adapter
swallows the failure (its normal behaviour, returning `None`) nothing is
recorded at all — there is no retry loop, no backoff, and no
attempt-count message. -/
theorem C1_single_invocation_no_retry :
    (transcribe_fragment_run dbRegistered fragRegistered nowDT0 alwaysFailingEngine).2 = 1 ∧
    ((findFragmentById (transcribe_fragment_run dbRegistered fragRegistered nowDT0
        alwaysFailingEngine).1 1).map
      (fun f => (f.transcribed, f.retry_count, f.processing_error)))
      = some (false, 1, some "Whisper Failed") ∧
    transcribe_fragment_run dbRegistered fragRegistered nowDT0 alwaysNoneEngine
      = (dbRegistered, 1) := by
  decide

/-- C2 counterexample: a fragment carrying `processing_error` from an
earlier attempt keeps that error after a successful transcription commit —
the success path of `transcribe_fragment` never assigns
`processing_error = None`, refuting "clears any previously stored
processing_error". -/
theorem C2_counterexample_error_not_cleared :
    ((findFragmentById (transcribe_fragment_db dbWithError 1 nowDT0
        (.ok (some resultOk))) 1).map
      (fun f => (f.transcribed, f.processing_error)))
      = some (true, some "old failure") := by
  decide

/-- C4 counterexample: registering the scenario file and then committing a
successful transcription for it twice (repeated processing of the same
path) leaves the Day's cumulative duration at 12 while its only
transcribed fragment stores duration 6 — duration conservation fails under
re-processing, because the success path adds the duration to the Day
unconditionally. -/
theorem C4_counterexample_double_processing :
    ((findDayById (runOps demoFs nowT0 nowDT0 emptyDB doubleProcessOps) 1).map
        Day.total_duration_seconds) = some 12 ∧
    dayFragSum (runOps demoFs nowT0 nowDT0 emptyDB doubleProcessOps) 1 = 6 := by
  decide

/-- C5 counterexample: with no pre-existing Day, a registration whose
Fragment-plus-counter commit fails still leaves the lazily created Day row
committed — the persisted state is *not* unchanged after the registry
failure. -/
theorem C5_counterexample_day_row_survives_failure :
    (add_file_to_database demoFs nowT0 true false emptyDB demoParts).2 = none ∧
    (add_file_to_database demoFs nowT0 true false emptyDB demoParts).1 ≠ emptyDB ∧
    ((add_file_to_database demoFs nowT0 true false emptyDB demoParts).1).days.length = 1 := by
  decide

/-- C6: the claim (like the source's own in-line comment) says a fixed
interval elapses between the two size samples.  The synchronous method
calls `asyncio.sleep(0.5)` without `await`, so the coroutine never runs
and both samples are taken at the same instant: a file that grows from 100
to 200 bytes during the claimed interval is reported ready, while the
spec-modelled detector rejects it.  The fail-closed behaviour on `stat()`
errors does hold. -/
theorem C6_unawaited_sleep_defeats_readiness_gate :
    is_file_ready growingFile 0 = true ∧
    readinessSpec growingFile 0 = false ∧
    is_file_ready vanishedFile 0 = false ∧
    readinessSpec vanishedFile 0 = false := by
  decide

/-- C7 counterexample: at the orchestrator-visible interface
(`transcribe_file`), a wall-clock timeout and an engine-internal exception
produce the *same* value `None` — the failures are not distinguishable
there, refuting the claim at this concrete input. -/
theorem C7_counterexample_timeout_collapsed_to_none :
    transcribe_file engineDev whisperCfg0 true .timeout "a.wav"
      = transcribe_file engineDev whisperCfg0 true (.engineError "boom") "a.wav" ∧
    transcribe_file engineDev whisperCfg0 true .timeout "a.wav" = none := by
  decide

/-- C8 counterexample: `Fragment.file_path` is declared indexed but not
unique, and the registry's declared constraints accept two Fragment rows
with the same path — duplicate registration is not prevented by the
registry itself. -/
theorem C8_counterexample_no_unique_path_constraint :
    fragment_file_path_column.unique = false ∧
    fragment_file_path_column.indexed = true ∧
    (dupPathDB.map (fun db => countPath db demoPath)) = some 2 := by
  decide

/-- C9: processing `2024-01-15/2024-01-15_14-30-00.wav` in mock engine
mode from an empty registry creates exactly one Day, dated 2024-01-15 with
fragment count 1, and one Fragment whose start time is 14:30:00 and whose
transcribed flag is set. -/
theorem C9_mock_mode_scenario :
    (process_audio_file demoSizeAt 0 nowT0 nowDT0 mockEngineFn ⟨emptyDB, []⟩
        demoParts).db.days.length = 1 ∧
    ((findDayByDate (process_audio_file demoSizeAt 0 nowT0 nowDT0 mockEngineFn
        ⟨emptyDB, []⟩ demoParts).db ⟨2024, 1, 15⟩).map
      (fun d => (d.total_fragments, d.date))) = some (1, ⟨2024, 1, 15⟩) ∧
    countPath (process_audio_file demoSizeAt 0 nowT0 nowDT0 mockEngineFn
        ⟨emptyDB, []⟩ demoParts).db demoPath = 1 ∧
    ((findFragmentByPath (process_audio_file demoSizeAt 0 nowT0 nowDT0 mockEngineFn
        ⟨emptyDB, []⟩ demoParts).db demoPath).map
      (fun f => (f.start_time, f.transcribed)))
      = some (⟨⟨2024, 1, 15⟩, ⟨14, 30, 0⟩⟩, true) := by
  decide

/-- C7 amended: inside the synchronous transcription layer the timeout is
a `TimeoutError` distinct from the re-raised engine-internal exception,
but `transcribe_file` catches both and returns the same `None`, so the
distinction never reaches the orchestrator. -/
theorem C7_timeout_distinct_only_in_sync_layer :
    ∀ (cfg : WhisperConfig) (m p : String) (dm mt : Bool),
      transcribeSync cfg .timeout = .error (.timeoutError (timeoutMessage cfg)) ∧
      transcribeSync cfg (.engineError m) = .error (.internal m) ∧
      SyncFailure.timeoutError (timeoutMessage cfg) ≠ SyncFailure.internal m ∧
      transcribe_file ⟨dm, false, mt⟩ cfg true .timeout p = none ∧
      transcribe_file ⟨dm, false, mt⟩ cfg true (.engineError m) p = none := by
  intro cfg m p dm mt
  refine ⟨rfl, rfl, by simp, ?_, ?_⟩ <;>
    simp [transcribe_file, transcribe_file_exc, transcribeSync]

/-- C8 amended: with the Day present and the path already registered,
`add_file_to_database` returns the existing row and leaves the registry
untouched — the query-before-insert check, not a registry constraint, is
what prevents duplicate registration. -/
theorem C8_lookup_is_the_duplicate_guard
    (fs : String → Option Nat) (nowT : Time) (c1ok c2ok : Bool) (db : DB)
    (parts : List String) (ds : String) (d : Date) (day : Day) (f0 : Fragment)
    (hds : extract_date_from_path parts = some ds)
    (hd : parseDateYMD ds = some d)
    (hday : findDayByDate db d = some day)
    (hf : findFragmentByPath db (pathStr parts) = some f0) :
    add_file_to_database fs nowT c1ok c2ok db parts = (db, some f0) := by
  unfold add_file_to_database
  simp only [hds, hd, hday, hf]

theorem C8_lookup_is_the_duplicate_guard_witness :
    add_file_to_database demoFs nowT0 true true dbRegistered demoParts
      = (dbRegistered, some fragRegistered) :=
  C8_lookup_is_the_duplicate_guard demoFs nowT0 true true dbRegistered demoParts
    "2024-01-15" ⟨2024, 1, 15⟩ day15 fragRegistered
    (by decide) (by decide) (by decide) (by decide)

/-- C10: the adapter's exception channel is always `ok` — `transcribe_file`
returns a (fully populated) result or `None` and never propagates an
exception; with `MOCK_WHISPER` set it always returns the mock result,
whose duration is 10.0 and whose engine identifier is "mock". -/
theorem C10_adapter_never_raises_and_mock_is_fixed :
    (∀ (dev : DevConfig) (cfg : WhisperConfig) (ml : Bool)
        (oc : EngineCallOutcome) (p : String),
        ∃ o, transcribe_file_exc dev cfg ml oc p = Except.ok o) ∧
    (∀ (dm mt ml : Bool) (cfg : WhisperConfig) (oc : EngineCallOutcome)
        (p : String),
        transcribe_file ⟨dm, true, mt⟩ cfg ml oc p = some (mock_transcribe p)) ∧
    (∀ p : String,
        (mock_transcribe p).duration = 10 ∧ (mock_transcribe p).model = "mock") := by
  refine ⟨?_, ?_, ?_⟩
  · intro dev cfg ml oc p
    unfold transcribe_file_exc
    split
    · exact ⟨_, rfl⟩
    · split
      · exact ⟨_, rfl⟩
      · split <;> exact ⟨_, rfl⟩
  · intro dm mt ml cfg oc p
    simp [transcribe_file, transcribe_file_exc]
  · intro p
    exact ⟨rfl, rfl⟩

/-- C4 amended: over any operation sequence in which every successful
transcription commit targets a not-yet-transcribed fragment, each Day's
cumulative duration equals the summed durations of its transcribed
fragments; and with non-negative committed durations no Day's cumulative
duration ever decreases.  (The unrestricted claim fails: re-processing an
already transcribed path re-adds its duration — see the counterexample.) -/
theorem C4_conservation_for_first_time_processing
    (fs : String → Option Nat) (nowT : Time) (nowDT : DateTime)
    (db : DB) (ops : List CoreOp)
    (hwf : WF db) (hinv : DurationInvariant db)
    (hsafe : safeRun fs nowT nowDT db ops = true)
    (hnn : nonNegOps ops = true) :
    DurationInvariant (runOps fs nowT nowDT db ops) ∧
    ∀ i, dayDurById db i ≤ dayDurById (runOps fs nowT nowDT db ops) i := by
  induction ops generalizing db with
  | nil => exact ⟨hinv, fun i => le_refl _⟩
  | cons op ops ih =>
    have hsafe2 : safeOp db op = true ∧
        safeRun fs nowT nowDT (stepOp fs nowT nowDT db op) ops = true := by
      have h : (safeOp db op &&
          safeRun fs nowT nowDT (stepOp fs nowT nowDT db op) ops) = true := hsafe
      simp only [Bool.and_eq_true] at h
      exact h
    have hnn2 : nonNegOp op = true ∧ nonNegOps ops = true := by
      have h : (nonNegOp op && nonNegOps ops) = true := hnn
      simp only [Bool.and_eq_true] at h
      exact h
    obtain ⟨hw2, hi2, hm2⟩ :=
      step_preserves fs nowT nowDT db op hwf hinv hsafe2.1 hnn2.1
    obtain ⟨hi3, hm3⟩ :=
      ih (stepOp fs nowT nowDT db op) hw2 hi2 hsafe2.2 hnn2.2
    exact ⟨hi3, fun i => le_trans (hm2 i) (hm3 i)⟩

theorem C4_conservation_for_first_time_processing_witness :
    DurationInvariant (runOps demoFs nowT0 nowDT0 emptyDB singleProcessOps) ∧
    ∀ i, dayDurById emptyDB i
      ≤ dayDurById (runOps demoFs nowT0 nowDT0 emptyDB singleProcessOps) i :=
  C4_conservation_for_first_time_processing demoFs nowT0 nowDT0 emptyDB
    singleProcessOps (by unfold WF; decide)
    (by unfold DurationInvariant; decide) (by decide) (by decide)

theorem C2_success_commit_updates_witness :
    findFragmentById (transcribe_fragment_db dbWithError 1 nowDT0
        (.ok (some resultOk))) 1
      = some { fragWithError with
          transcript_text := some resultOk.text,
          whisper_segments := some resultOk.segments,
          whisper_model_used := some resultOk.model,
          transcribed := true,
          transcription_completed_at := some nowDT0,
          duration_seconds := some resultOk.duration,
          processing_error := fragWithError.processing_error } ∧
    dayDurById (transcribe_fragment_db dbWithError 1 nowDT0
        (.ok (some resultOk))) fragWithError.day_id
      = dayDurById dbWithError fragWithError.day_id + resultOk.duration :=
  C2_success_commit_updates dbWithError 1 fragWithError resultOk nowDT0
    (by decide) (by decide)

/-- C3: registering a fresh path creates one Fragment and bumps the Day
count once; registering it again returns that same Fragment and leaves
the registry byte-for-byte unchanged. -/
theorem C3_idempotent_registration
    (fs : String → Option Nat) (nowT : Time) (db : DB) (parts : List String)
    (ds : String) (d : Date) (sz : Nat)
    (hwf : WF db)
    (hds : extract_date_from_path parts = some ds)
    (hd : parseDateYMD ds = some d)
    (hnone : findFragmentByPath db (pathStr parts) = none)
    (hfs : fs (pathStr parts) = some sz) :
    ∃ frag : Fragment,
      (add_file_to_database fs nowT true true db parts).2 = some frag ∧
      add_file_to_database fs nowT true true
          (add_file_to_database fs nowT true true db parts).1 parts
        = ((add_file_to_database fs nowT true true db parts).1, some frag) ∧
      countPath (add_file_to_database fs nowT true true db parts).1 (pathStr parts)
        = countPath db (pathStr parts) + 1 ∧
      dayCountByDate (add_file_to_database fs nowT true true db parts).1 d
        = dayCountByDate db d + 1 := by
  obtain ⟨hfb, hfnd, hdb, hdnd, hfd⟩ := hwf
  rcases hdaycase : findDayByDate db d with _ | day
  · have heq := add_file_day_absent fs nowT true db parts ds d sz
      hds hd hdaycase hnone hfs
    rw [if_pos rfl] at heq
    refine ⟨newFragment (insertDayRow db (freshDay db d)) (freshDay db d) parts
        (extract_start_time_from_filename (pathName parts) d nowT) sz,
      ?_, ?_, ?_, ?_⟩
    · rw [heq]
    · rw [heq]
      exact add_file_existing fs nowT true true _ parts ds d _ _ hds hd
        (dayFind_commit_absent db _ d hdaycase hdb)
        (findPath_commit _ _ _ _ hnone rfl)
    · rw [heq]
      exact countPath_commit _ _ _ _ rfl
    · rw [heq]
      have h1 := dayFind_commit_absent db
        (newFragment (insertDayRow db (freshDay db d)) (freshDay db d) parts
          (extract_start_time_from_filename (pathName parts) d nowT) sz)
        d hdaycase hdb
      unfold dayCountByDate
      rw [h1, hdaycase]
      rfl
  · have hdayMem : day ∈ db.days := List.mem_of_find?_eq_some hdaycase
    have huniq : ∀ b ∈ db.days, b.id = day.id → b = day := fun b hb hbid =>
      List.inj_on_of_nodup_map hdnd hb hdayMem hbid
    have heq := add_file_day_present fs nowT true true db parts ds d day sz
      hds hd hdaycase hnone hfs
    rw [if_pos rfl] at heq
    refine ⟨newFragment db day parts
        (extract_start_time_from_filename (pathName parts) d nowT) sz,
      ?_, ?_, ?_, ?_⟩
    · rw [heq]
    · rw [heq]
      exact add_file_existing fs nowT true true _ parts ds d _ _ hds hd
        (dayFind_commit_present db _ day d hdaycase huniq)
        (findPath_commit _ _ _ _ hnone rfl)
    · rw [heq]
      exact countPath_commit _ _ _ _ rfl
    · rw [heq]
      have h1 := dayFind_commit_present db
        (newFragment db day parts
          (extract_start_time_from_filename (pathName parts) d nowT) sz)
        day d hdaycase huniq
      unfold dayCountByDate
      rw [h1, hdaycase]
      rfl

theorem C3_idempotent_registration_witness :
    ∃ frag : Fragment,
      (add_file_to_database demoFs nowT0 true true emptyDB demoParts).2 = some frag ∧
      add_file_to_database demoFs nowT0 true true
          (add_file_to_database demoFs nowT0 true true emptyDB demoParts).1 demoParts
        = ((add_file_to_database demoFs nowT0 true true emptyDB demoParts).1, some frag) ∧
      countPath (add_file_to_database demoFs nowT0 true true emptyDB demoParts).1
          (pathStr demoParts)
        = countPath emptyDB (pathStr demoParts) + 1 ∧
      dayCountByDate (add_file_to_database demoFs nowT0 true true emptyDB demoParts).1
          ⟨2024, 1, 15⟩
        = dayCountByDate emptyDB ⟨2024, 1, 15⟩ + 1 :=
  C3_idempotent_registration demoFs nowT0 emptyDB demoParts "2024-01-15"
    ⟨2024, 1, 15⟩ 1024 (by unfold WF; decide) (by decide) (by decide)
    (by decide) (by decide)

/-- C5 amended: the Fragment row and the Day counter increment are one
transactional unit — a successful commit persists both, a failed commit
persists neither (the separately committed lazy Day row is the one piece
of state the failure can leave behind, exhibited by the counterexample). -/
theorem C5_fragment_and_count_commit_atomically
    (fs : String → Option Nat) (nowT : Time) (db : DB) (parts : List String)
    (ds : String) (d : Date) (sz : Nat)
    (hwf : WF db)
    (hds : extract_date_from_path parts = some ds)
    (hd : parseDateYMD ds = some d)
    (hnone : findFragmentByPath db (pathStr parts) = none)
    (hfs : fs (pathStr parts) = some sz) :
    ((add_file_to_database fs nowT true true db parts).2 ≠ none ∧
     countPath (add_file_to_database fs nowT true true db parts).1 (pathStr parts)
       = countPath db (pathStr parts) + 1 ∧
     dayCountByDate (add_file_to_database fs nowT true true db parts).1 d
       = dayCountByDate db d + 1) ∧
    ((add_file_to_database fs nowT true false db parts).2 = none ∧
     countPath (add_file_to_database fs nowT true false db parts).1 (pathStr parts)
       = countPath db (pathStr parts) ∧
     dayCountByDate (add_file_to_database fs nowT true false db parts).1 d
       = dayCountByDate db d) := by
  obtain ⟨hfb, hfnd, hdb, hdnd, hfd⟩ := hwf
  rcases hdaycase : findDayByDate db d with _ | day
  · have heq := add_file_day_absent fs nowT true db parts ds d sz
      hds hd hdaycase hnone hfs
    have heqF := add_file_day_absent fs nowT false db parts ds d sz
      hds hd hdaycase hnone hfs
    rw [if_pos rfl] at heq
    rw [if_neg Bool.false_ne_true] at heqF
    have hfresh : List.find? (fun x => decide (x.date = d))
        (db.days ++ [freshDay db d]) = some (freshDay db d) := by
      have hday' : List.find? (fun x => decide (x.date = d)) db.days
        = none := hdaycase
      have hdd : decide ((freshDay db d).date = d) = true := by
        show decide (d = d) = true
        simp
      rw [List.find?_append, hday', List.find?_cons, hdd]
      rfl
    refine ⟨⟨?_, ?_, ?_⟩, ?_, ?_, ?_⟩
    · rw [heq]
      exact fun h => Option.noConfusion h
    · rw [heq]
      exact countPath_commit _ _ _ _ rfl
    · rw [heq]
      have h1 := dayFind_commit_absent db
        (newFragment (insertDayRow db (freshDay db d)) (freshDay db d) parts
          (extract_start_time_from_filename (pathName parts) d nowT) sz)
        d hdaycase hdb
      unfold dayCountByDate
      rw [h1, hdaycase]
      rfl
    · rw [heqF]
    · rw [heqF]
      rfl
    · rw [heqF]
      unfold dayCountByDate
      rw [hdaycase]
      show ((List.find? (fun x => decide (x.date = d))
          (db.days ++ [freshDay db d])).map Day.total_fragments).getD 0 = _
      rw [hfresh]
      rfl
  · have hdayMem : day ∈ db.days := List.mem_of_find?_eq_some hdaycase
    have huniq : ∀ b ∈ db.days, b.id = day.id → b = day := fun b hb hbid =>
      List.inj_on_of_nodup_map hdnd hb hdayMem hbid
    have heq := add_file_day_present fs nowT true true db parts ds d day sz
      hds hd hdaycase hnone hfs
    have heqF := add_file_day_present fs nowT true false db parts ds d day sz
      hds hd hdaycase hnone hfs
    rw [if_pos rfl] at heq
    rw [if_neg Bool.false_ne_true] at heqF
    refine ⟨⟨?_, ?_, ?_⟩, ?_, ?_, ?_⟩
    · rw [heq]
      exact fun h => Option.noConfusion h
    · rw [heq]
      exact countPath_commit _ _ _ _ rfl
    · rw [heq]
      have h1 := dayFind_commit_present db
        (newFragment db day parts
          (extract_start_time_from_filename (pathName parts) d nowT) sz)
        day d hdaycase huniq
      unfold dayCountByDate
      rw [h1, hdaycase]
      rfl
    · rw [heqF]
    · rw [heqF]
    · rw [heqF]

theorem C5_fragment_and_count_commit_atomically_witness :
    ((add_file_to_database demoFs nowT0 true true emptyDB demoParts).2 ≠ none ∧
     countPath (add_file_to_database demoFs nowT0 true true emptyDB demoParts).1
         (pathStr demoParts)
       = countPath emptyDB (pathStr demoParts) + 1 ∧
     dayCountByDate (add_file_to_database demoFs nowT0 true true emptyDB demoParts).1
         ⟨2024, 1, 15⟩
       = dayCountByDate emptyDB ⟨2024, 1, 15⟩ + 1) ∧
    ((add_file_to_database demoFs nowT0 true false emptyDB demoParts).2 = none ∧
     countPath (add_file_to_database demoFs nowT0 true false emptyDB demoParts).1
         (pathStr demoParts)
       = countPath emptyDB (pathStr demoParts) ∧
     dayCountByDate (add_file_to_database demoFs nowT0 true false emptyDB demoParts).1
         ⟨2024, 1, 15⟩
       = dayCountByDate emptyDB ⟨2024, 1, 15⟩) :=
  C5_fragment_and_count_commit_atomically demoFs nowT0 emptyDB demoParts
    "2024-01-15" ⟨2024, 1, 15⟩ 1024 (by unfold WF; decide) (by decide)
    (by decide) (by decide) (by decide)

end AIAssist
